import Mathlib

/-!
# bookmark-manager: a verification development

A shallow embedding of `main.go` of zinrai/bookmark-manager.

* The SQLite table `bookmarks`, its `sqlite_sequence` counter and the directory
  `thumbnails/` form the explicit state `World`.
* Every effect whose result the program branches on (the headless-browser
  capture, the result of each SQL statement, the result of `os.WriteFile`) is
  an explicit outcome argument of the handler that performs it.
* Go strings are Lean strings; byte slices are lists of naturals.
* `xml.MarshalIndent` and `xml.Unmarshal` are library code; the printer for the
  struct `NetscapeBookmark`, the struct mapping fixed by its field tags and the
  strict-mode tokenizer are written out below as they behave in `encoding/xml`.
  The Unicode tables of name characters beyond ASCII and the check of an
  `<?xml ...?>` declaration stay parameters (`XmlTables`).

The first part holds the definitions, the second part the theorems.
-/

namespace BookmarkManager

/-! # Part 1: definitions -/

/-! ## Data model -/

/-- Bookmark is the row type of main.go:21-25. -/
structure Bookmark where
  ID : Int
  URL : String
  Thumbnail : String
deriving DecidableEq, Repr

/-- Byte slices. -/
abbrev Bytes := List Nat

/-- Anchor is the anonymous struct of field `A` (main.go:39-42). -/
structure Anchor where
  HREF : String
  AddDate : String
deriving DecidableEq, Repr

/-- DTEntry is the anonymous element struct of the slice `DT` (main.go:37-43). -/
structure DTEntry where
  H3 : String
  A : Anchor
deriving DecidableEq, Repr

/-- MetaTag is the anonymous struct of field `META` (main.go:30-33). -/
structure MetaTag where
  HTTPEquiv : String
  Content : String
deriving DecidableEq, Repr

/-- DLList is the anonymous struct of field `DL` (main.go:36-44). -/
structure DLList where
  DT : List DTEntry
deriving DecidableEq, Repr

/-- NetscapeBookmark is the struct of main.go:27-45; `XMLName` keeps the local
part of the `xml.Name`. -/
structure NetscapeBookmark where
  XMLName : String
  DOCTYPE : String
  META : MetaTag
  TITLE : String
  H1 : String
  DL : DLList
deriving DecidableEq, Repr

/-- World is the state the handlers read and write: the rows of table
`bookmarks` in rowid order, the `sqlite_sequence` counter that `AUTOINCREMENT`
maintains, the files below `thumbnails/`, and the trace of URLs handed to
`captureScreenshot` (a ghost field, never read by the program). -/
structure World where
  rows : List Bookmark
  seq : Int
  files : List (String × Bytes)
  captured : List String
deriving DecidableEq, Repr

/-- The state after `initDB` and `os.MkdirAll` on a fresh installation
(main.go:49-64, 270). -/
def initDB : World :=
  { rows := [], seq := 0, files := [], captured := [] }

/-- Response is what a handler hands to gin: `c.JSON`, `c.HTML` (always the
template `index.html` with a one-entry `gin.H`), `c.Redirect`, the exported
attachment, or the listing. -/
inductive Response where
  | json (status : Nat) (key : String) (msg : String)
  | html (status : Nat) (key : String) (msg : String)
  | redirect (status : Nat) (location : String)
  | attachment (status : Nat) (filename : String) (contentType : String) (body : String)
  | listing (status : Nat) (bookmarks : List Bookmark)
deriving DecidableEq, Repr

/-! ## Effects -/

/-- WriteOutcome is the result of `os.WriteFile`: success; `OpenFile` failed
(nothing touched); or the file was created or truncated and the write or the
close failed after `written` bytes reached it. -/
inductive WriteOutcome where
  | ok
  | openFailed
  | writeFailed (written : Nat)
deriving DecidableEq, Repr

/-- Outcome collects what the environment decides during one pass through the
capture-insert-write-update sequence: the screenshot (`none` when
`captureScreenshot` returns an error), whether the `INSERT` fails for a reason
other than the `UNIQUE` constraint, the result of `os.WriteFile`, and whether
the `UPDATE` fails. -/
structure Outcome where
  capture : Option Bytes
  insertFails : Bool
  write : WriteOutcome
  updateFails : Bool
deriving DecidableEq, Repr

/-- InsertResult is the result of the `INSERT` statement as the handlers
distinguish it: the new rowid, `sqlite3.ErrConstraintUnique`, or another error. -/
inductive InsertResult where
  | inserted (id : Int)
  | constraintUnique
  | failed
deriving DecidableEq, Repr

/-- The rowid `AUTOINCREMENT` assigns next: one more than the largest rowid in
the table and the `sqlite_sequence` counter. -/
def nextRowid (w : World) : Int :=
  w.rows.foldr (fun r m => max r.ID m) w.seq + 1

/-- Statement `INSERT INTO bookmarks (url, thumbnail) VALUES (?, ?)` under the
schema of main.go:56-60 (`url TEXT NOT NULL UNIQUE`). -/
def execInsert (w : World) (url thumbnail : String) (fails : Bool) : World × InsertResult :=
  if fails then (w, .failed)
  else if w.rows.any (fun r => r.URL == url) then (w, .constraintUnique)
  else
    let id := nextRowid w
    ({ w with rows := w.rows ++ [{ ID := id, URL := url, Thumbnail := thumbnail }], seq := id },
      .inserted id)

/-- Statement `UPDATE bookmarks SET thumbnail = ? WHERE id = ?`; the Boolean
result is `err == nil`. -/
def execUpdate (w : World) (thumbnail : String) (id : Int) (fails : Bool) : World × Bool :=
  if fails then (w, false)
  else
    let set := fun (r : Bookmark) => if r.ID = id then { r with Thumbnail := thumbnail } else r
    ({ w with rows := w.rows.map set }, true)

/-- Statement `DELETE FROM bookmarks WHERE id = ?`. The bound value is the
text of the route parameter; `id` is the integer SQLite compares with the
column after applying the column affinity, `none` when the text is not
numeric (then no row matches). The Boolean result is `err == nil`. -/
def execDelete (w : World) (id : Option Int) (fails : Bool) : World × Bool :=
  if fails then (w, false)
  else
    match id with
    | none => (w, true)
    | some k => ({ w with rows := w.rows.filter (fun r => r.ID ≠ k) }, true)

/-- Replace or create one entry of the thumbnail directory. -/
def putFile (files : List (String × Bytes)) (path : String) (data : Bytes) :
    List (String × Bytes) :=
  if files.any (fun f => f.1 == path) then
    files.map (fun f => if f.1 = path then (path, data) else f)
  else files ++ [(path, data)]

/-- Call `os.WriteFile(path, data, 0644)`; the Boolean result is `err == nil`. -/
def writeFile (w : World) (path : String) (data : Bytes) (o : WriteOutcome) : World × Bool :=
  match o with
  | .ok => ({ w with files := putFile w.files path data }, true)
  | .openFailed => (w, false)
  | .writeFailed n => ({ w with files := putFile w.files path (data.take n) }, false)

/-- Expression `filepath.Join("thumbnails", fmt.Sprintf("%d.png", id))`
(main.go:103, 189) with the separator `/`. -/
def thumbnailPath (id : Int) : String :=
  "thumbnails/" ++ toString id ++ ".png"

/-- Call `captureScreenshot(url)` (main.go:66-77): records the navigation and
returns what the environment produced. -/
def captureScreenshot (w : World) (url : String) (result : Option Bytes) :
    World × Option Bytes :=
  ({ w with captured := w.captured ++ [url] }, result)

/-! ## The interchange document as `encoding/xml` maps it to the struct -/

/-- XNode is a node of the element tree that the token stream of
`xml.Decoder` describes: an element with its local name, its attributes
(local name and unescaped value, in document order) and its children, or a
run of character data. Comments, directives and processing instructions are
tokens `Unmarshal` ignores and have no node. -/
inductive XNode where
  | elem (name : String) (attrs : List (String × String)) (children : List XNode)
  | text (data : String)
deriving Repr

/-- Parsed is what the tokenizer delivers to `Unmarshal`: the first start
element of the input with everything up to its end tag, and the raw text
between the two tags (what an `innerxml` field receives). -/
structure Parsed where
  name : String
  attrs : List (String × String)
  children : List XNode
  inner : String
deriving Repr

/-- The value `Unmarshal` stores in a `string` field: the character data
directly inside the element; nested elements are skipped. -/
def charData (children : List XNode) : String :=
  children.foldl (fun acc n => match n with
    | .text s => acc ++ s
    | .elem _ _ _ => acc) ""

/-- Attributes of `<META>` copied into the fields tagged `http-equiv,attr`
and `content,attr`. -/
def unmarshalMetaAttrs (m : MetaTag) (attrs : List (String × String)) : MetaTag :=
  attrs.foldl (fun m a =>
    if a.1 = "http-equiv" then { m with HTTPEquiv := a.2 }
    else if a.1 = "content" then { m with Content := a.2 }
    else m) m

/-- Attributes of `<A>` copied into the fields tagged `HREF,attr` and
`ADD_DATE,attr`. -/
def unmarshalAnchorAttrs (a : Anchor) (attrs : List (String × String)) : Anchor :=
  attrs.foldl (fun a kv =>
    if kv.1 = "HREF" then { a with HREF := kv.2 }
    else if kv.1 = "ADD_DATE" then { a with AddDate := kv.2 }
    else a) a

/-- One child of a `<DT>` element: `H3` and `A` are the only tagged fields of
the element struct, every other child is skipped. -/
def unmarshalDTChild (e : DTEntry) : XNode → DTEntry
  | .text _ => e
  | .elem name attrs cs =>
    if name = "H3" then { e with H3 := charData cs }
    else if name = "A" then { e with A := unmarshalAnchorAttrs e.A attrs }
    else e

/-- A `<DT>` element unmarshalled into a fresh slice element. -/
def unmarshalDT (children : List XNode) : DTEntry :=
  children.foldl unmarshalDTChild { H3 := "", A := { HREF := "", AddDate := "" } }

/-- One child of a `<DL>` element: a `DT` grows the slice by one element,
every other child is skipped. -/
def unmarshalDLChild (dl : DLList) : XNode → DLList
  | .text _ => dl
  | .elem name _ cs => if name = "DT" then { DT := dl.DT ++ [unmarshalDT cs] } else dl

/-- One child of the root element, matched against the tags `META`, `TITLE`,
`H1` and `DL` of main.go:30-44. -/
def unmarshalRootChild (nb : NetscapeBookmark) : XNode → NetscapeBookmark
  | .text _ => nb
  | .elem name attrs cs =>
    if name = "META" then { nb with META := unmarshalMetaAttrs nb.META attrs }
    else if name = "TITLE" then { nb with TITLE := charData cs }
    else if name = "H1" then { nb with H1 := charData cs }
    else if name = "DL" then { nb with DL := cs.foldl unmarshalDLChild nb.DL }
    else nb

/-- The zero value of `var netscapeBookmark NetscapeBookmark` (main.go:162). -/
def zeroNetscapeBookmark : NetscapeBookmark :=
  { XMLName := "", DOCTYPE := "", META := { HTTPEquiv := "", Content := "" },
    TITLE := "", H1 := "", DL := { DT := [] } }

/-- The struct mapping of `xml.Unmarshal(bytes, &netscapeBookmark)` as the
field tags of main.go:27-45 fix it; it fails when the root element is not
`NETSCAPE-Bookmark-file-1`. -/
def unmarshalDocument (p : Parsed) : Option NetscapeBookmark :=
  if p.name = "NETSCAPE-Bookmark-file-1" then
    some (p.children.foldl unmarshalRootChild
      { zeroNetscapeBookmark with XMLName := p.name, DOCTYPE := p.inner })
  else none

/-- Call `xml.Unmarshal(bytes, &netscapeBookmark)`; `tokens` is the tokenizer
of `encoding/xml`, `none` when the input is malformed before the end tag of
the root element. -/
def xmlUnmarshal (tokens : Bytes → Option Parsed) (bytes : Bytes) : Option NetscapeBookmark :=
  (tokens bytes).bind unmarshalDocument

/-- The URLs the loop of main.go:169-170 visits, in order. -/
def importURLs (nb : NetscapeBookmark) : List String :=
  nb.DL.DT.map (fun dt => dt.A.HREF)

/-! ## Handlers: add, list, delete, import -/

/-- Handler `addBookmark` (main.go:79-116); `url` is `c.PostForm("url")`. -/
def addBookmark (w : World) (url : String) (o : Outcome) : World × Response :=
  if url = "" then (w, .json 400 "error" "URL is required")
  else
    match captureScreenshot w url o.capture with
    | (w1, none) => (w1, .json 500 "error" "Failed to capture screenshot")
    | (w1, some screenshot) =>
      match execInsert w1 url "" o.insertFails with
      | (w2, .constraintUnique) => (w2, .json 409 "error" "This URL is already bookmarked")
      | (w2, .failed) => (w2, .json 500 "error" "Failed to add bookmark")
      | (w2, .inserted id) =>
        match writeFile w2 (thumbnailPath id) screenshot o.write with
        | (w3, false) => (w3, .json 500 "error" "Failed to save thumbnail")
        | (w3, true) =>
          match execUpdate w3 (thumbnailPath id) id o.updateFails with
          | (w4, false) => (w4, .json 500 "error" "Failed to update bookmark")
          | (w4, true) => (w4, .json 200 "message" "Bookmark added successfully")

/-- Function `getBookmarks` (main.go:118-135); `fails` is a query or scan
error. -/
def getBookmarks (w : World) (fails : Bool) : Option (List Bookmark) :=
  if fails then none else some w.rows

/-- Handler `deleteBookmark` (main.go:137-146); `param` is `c.Param("id")` and
`affinity` the conversion SQLite applies to it for the comparison with the
integer column. -/
def deleteBookmark (affinity : String → Option Int) (w : World) (param : String)
    (fails : Bool) : World × Response :=
  match execDelete w (affinity param) fails with
  | (w1, false) => (w1, .html 500 "error" "Failed to delete bookmark")
  | (w1, true) => (w1, .redirect 303 "/")

/-- Upload is the result of `c.Request.FormFile("file")` followed by
`io.ReadAll` (main.go:149-160). -/
inductive Upload where
  | missing
  | unreadable
  | content (bytes : Bytes)
deriving DecidableEq, Repr

/-- Body of the loop of main.go:169-202 for one entry: the new state and the
new value of `importedCount`. -/
def importEntry (w : World) (importedCount : Nat) (url : String) (o : Outcome) : World × Nat :=
  match captureScreenshot w url o.capture with
  | (w1, none) => (w1, importedCount)
  | (w1, some screenshot) =>
    match execInsert w1 url "" o.insertFails with
    | (w2, .constraintUnique) => (w2, importedCount)
    | (w2, .failed) => (w2, importedCount)
    | (w2, .inserted id) =>
      match writeFile w2 (thumbnailPath id) screenshot o.write with
      | (w3, false) => (w3, importedCount)
      | (w3, true) =>
        match execUpdate w3 (thumbnailPath id) id o.updateFails with
        | (w4, false) => (w4, importedCount)
        | (w4, true) => (w4, importedCount + 1)

/-- Loop `for _, dt := range netscapeBookmark.DL.DT` (main.go:168-202); entry
number `i` meets the outcome `os i`. -/
def importLoop (w : World) (importedCount : Nat) :
    List DTEntry → (Nat → Outcome) → World × Nat
  | [], _ => (w, importedCount)
  | dt :: rest, os =>
    match importEntry w importedCount dt.A.HREF (os 0) with
    | (w1, n) => importLoop w1 n rest (fun i => os (i + 1))

/-- Handler `importNetscapeBookmarks` (main.go:148-205). -/
def importNetscapeBookmarks (tokens : Bytes → Option Parsed) (w : World) (upload : Upload)
    (os : Nat → Outcome) : World × Response :=
  match upload with
  | .missing => (w, .html 400 "error" "Failed to get file")
  | .unreadable => (w, .html 500 "error" "Failed to read file")
  | .content bytes =>
    match xmlUnmarshal tokens bytes with
    | none => (w, .html 400 "error" "Failed to parse Netscape bookmark file")
    | some netscapeBookmark =>
      match importLoop w 0 netscapeBookmark.DL.DT os with
      | (w1, importedCount) =>
        (w1, .html 200 "message"
          ("Successfully imported " ++ toString importedCount ++ " new bookmarks"))

/-! ## Export and the printer of `encoding/xml` -/

/-- Predicate `isInCharacterRange` of `encoding/xml`: the characters XML 1.0
allows in a document. -/
def isInCharacterRange (c : Char) : Bool :=
  c.toNat = 0x09 || c.toNat = 0x0A || c.toNat = 0x0D ||
  (0x20 ≤ c.toNat && c.toNat ≤ 0xD7FF) ||
  (0xE000 ≤ c.toNat && c.toNat ≤ 0xFFFD) ||
  (0x10000 ≤ c.toNat && c.toNat ≤ 0x10FFFF)

/-- What the printer of `encoding/xml` writes for one character of an
attribute value or of character data (`EscapeString`). -/
def escapeChar (c : Char) : List Char :=
  if c = '"' then "&#34;".toList
  else if c = '\'' then "&#39;".toList
  else if c = '&' then "&amp;".toList
  else if c = '<' then "&lt;".toList
  else if c = '>' then "&gt;".toList
  else if c = '\t' then "&#x9;".toList
  else if c = '\n' then "&#xA;".toList
  else if c = '\r' then "&#xD;".toList
  else if isInCharacterRange c then [c]
  else [Char.ofNat 0xFFFD]

/-- Function `EscapeString` of the printer, on a list of characters. -/
def escapeChars : List Char → List Char
  | [] => []
  | c :: cs => escapeChar c ++ escapeChars cs

/-- Function `EscapeString` of the printer. -/
def escapeString (s : String) : String :=
  String.mk (escapeChars s.toList)

/-- One level of indentation of `xml.MarshalIndent(v, "", "    ")`. -/
def indentUnit : String := "    "

/-- Indentation written by `writeIndent` at depth `n`, after the newline. -/
def indentation : Nat → String
  | 0 => ""
  | n + 1 => indentation n ++ indentUnit

/-- One element of the slice `DT` as `MarshalIndent` prints it at depth 2:
`H3` is tagged `omitempty`, the attributes of `A` are always written. -/
def marshalDT (dt : DTEntry) : String :=
  "\n" ++ indentation 2 ++ "<DT>" ++
  (if dt.H3 = "" then "" else "\n" ++ indentation 3 ++ "<H3>" ++ escapeString dt.H3 ++ "</H3>") ++
  "\n" ++ indentation 3 ++ "<A HREF=\"" ++ escapeString dt.A.HREF ++
    "\" ADD_DATE=\"" ++ escapeString dt.A.AddDate ++ "\"></A>" ++
  "\n" ++ indentation 2 ++ "</DT>"

/-- The elements of the slice `DT`, one after the other. -/
def marshalDTs : List DTEntry → String
  | [] => ""
  | dt :: rest => marshalDT dt ++ marshalDTs rest

/-- Element `<DL>` at depth 1; the end tag follows the start tag directly when
the slice is empty. -/
def marshalDL (dl : DLList) : String :=
  "\n" ++ indentation 1 ++ "<DL>" ++
  (match dl.DT with
    | [] => ""
    | dts => marshalDTs dts ++ "\n" ++ indentation 1) ++
  "</DL>"

/-- Call `xml.MarshalIndent(netscapeBookmark, "", "    ")` (main.go:245) for the
struct of main.go:27-45: the root is named by the tag of `XMLName`, the
`innerxml` field is written verbatim right after the start tag, then the
fields in declaration order. It has no failing case for this type. -/
def marshalIndent (nb : NetscapeBookmark) : Option String :=
  some ("<NETSCAPE-Bookmark-file-1>" ++ nb.DOCTYPE ++
    "\n" ++ indentation 1 ++ "<META http-equiv=\"" ++ escapeString nb.META.HTTPEquiv ++
      "\" content=\"" ++ escapeString nb.META.Content ++ "\"></META>" ++
    "\n" ++ indentation 1 ++ "<TITLE>" ++ escapeString nb.TITLE ++ "</TITLE>" ++
    "\n" ++ indentation 1 ++ "<H1>" ++ escapeString nb.H1 ++ "</H1>" ++
    marshalDL nb.DL ++
    "\n</NETSCAPE-Bookmark-file-1>")

/-- The composite literal of main.go:214-225. -/
def exportHeader : NetscapeBookmark :=
  { XMLName := "", DOCTYPE := "DOCTYPE NETSCAPE-Bookmark-file-1",
    META := { HTTPEquiv := "Content-Type", Content := "text/html; charset=UTF-8" },
    TITLE := "Bookmarks", H1 := "Bookmarks", DL := { DT := [] } }

/-- Loop of main.go:227-243; the `i`-th iteration reads the clock as
`now i` (`time.Now().Unix()`). -/
def exportLoop (nb : NetscapeBookmark) : List Bookmark → (Nat → Int) → NetscapeBookmark
  | [], _ => nb
  | bookmark :: rest, now =>
    exportLoop
      { nb with DL := { DT := nb.DL.DT ++
          [{ H3 := "", A := { HREF := bookmark.URL, AddDate := toString (now 0) } }] } }
      rest (fun i => now (i + 1))

/-- The value of `netscapeBookmark` at main.go:245. -/
def exportDocument (bookmarks : List Bookmark) (now : Nat → Int) : NetscapeBookmark :=
  exportLoop exportHeader bookmarks now

/-- The body sent at main.go:253. -/
def exportBody (output : String) : String :=
  "<!DOCTYPE NETSCAPE-Bookmark-file-1>\n" ++ output

/-- Handler `exportBookmarks` (main.go:207-254). -/
def exportBookmarks (w : World) (queryFails : Bool) (now : Nat → Int) : Response :=
  match getBookmarks w queryFails with
  | none => .html 500 "error" "Failed to get bookmarks"
  | some bookmarks =>
    match marshalIndent (exportDocument bookmarks now) with
    | none => .html 500 "error" "Failed to generate export file"
    | some output => .attachment 200 "bookmarks.html" "text/html" (exportBody output)

/-- Handler `indexHandler` (main.go:256-264). -/
def indexHandler (w : World) (queryFails : Bool) : Response :=
  match getBookmarks w queryFails with
  | none => .html 500 "error" "Failed to get bookmarks"
  | some bookmarks => .listing 200 bookmarks

/-! ## The decoder of `encoding/xml` on the text of a document -/

/-- XmlTables holds the parts of `encoding/xml` the development leaves open:
membership of a character from U+0080 on in the tables `first` and `second`
of name characters, and the check of version and encoding that the decoder
applies to the content of an `<?xml ...?>` declaration. -/
structure XmlTables where
  first : Char → Bool
  second : Char → Bool
  declOK : List Char → Bool

/-- Name is `xml.Name`. -/
structure Name where
  Space : List Char
  Local : List Char
deriving DecidableEq, Repr

/-- Token is what `Decoder.rawToken` returns; a start element carries the
flag of the form `<a/>`, whose end element the decoder supplies itself. -/
inductive Token where
  | startElement (name : Name) (attrs : List (Name × List Char)) (empty : Bool)
  | endElement (name : Name)
  | charData (data : List Char)
  | comment
  | procInst
  | directive
deriving Repr

/-- Function `isNameByte` of `encoding/xml`. -/
def isNameByte (c : Char) : Bool :=
  (65 ≤ c.toNat && c.toNat ≤ 90) || (97 ≤ c.toNat && c.toNat ≤ 122) ||
  (48 ≤ c.toNat && c.toNat ≤ 57) || c = '_' || c = ':' || c = '.' || c = '-'

/-- The bytes `readName` accepts: name bytes and every byte of a character
from U+0080 on. -/
def readsAsName (c : Char) : Bool :=
  128 ≤ c.toNat || isNameByte c

/-- The loop of `readName` after the first byte; the end of the input is an
error. -/
def readNameLoop : List Char → Option (List Char × List Char)
  | [] => none
  | c :: cs =>
    if readsAsName c then
      match readNameLoop cs with
      | none => none
      | some (n, rest) => some (c :: n, rest)
    else some ([], c :: cs)

/-- Method `readName`: the longest run of name bytes, which must not be
empty. -/
def readName : List Char → Option (List Char × List Char)
  | [] => none
  | c :: cs =>
    if readsAsName c then
      match readNameLoop cs with
      | none => none
      | some (n, rest) => some (c :: n, rest)
    else none

/-- Membership in the table `first` (letters, `_` and `:` below U+0080). -/
def isFirst (T : XmlTables) (c : Char) : Bool :=
  if c.toNat < 128 then
    (65 ≤ c.toNat && c.toNat ≤ 90) || (97 ≤ c.toNat && c.toNat ≤ 122) || c = '_' || c = ':'
  else T.first c

/-- Membership in the table `second` (digits, `-` and `.` below U+0080). -/
def isSecond (T : XmlTables) (c : Char) : Bool :=
  if c.toNat < 128 then (48 ≤ c.toNat && c.toNat ≤ 57) || c = '-' || c = '.'
  else T.second c

/-- Function `isName`. -/
def isName (T : XmlTables) : List Char → Bool
  | [] => false
  | c :: cs => isFirst T c && cs.all (fun x => isFirst T x || isSecond T x)

/-- Method `name`: `readName` followed by the check of the characters. -/
def name (T : XmlTables) (input : List Char) : Option (List Char × List Char) :=
  match readName input with
  | none => none
  | some (n, rest) => if isName T n then some (n, rest) else none

/-- Method `nsname`: a name split at its colon into space and local part;
more than one colon is an error, and a name with an empty side stays whole. -/
def nsname (T : XmlTables) (input : List Char) : Option (Name × List Char) :=
  match name T input with
  | none => none
  | some (s, rest) =>
    if 1 < s.count ':' then none
    else
      let space := s.takeWhile (fun c => c != ':')
      let loc := (s.dropWhile (fun c => c != ':')).drop 1
      if s.count ':' = 0 || space = [] || loc = [] then
        some ({ Space := [], Local := s }, rest)
      else some ({ Space := space, Local := loc }, rest)

/-- Method `space`: skips blanks, tabs and line ends. -/
def skipSpace : List Char → List Char
  | [] => []
  | c :: cs => if c = ' ' || c = '\r' || c = '\n' || c = '\t' then skipSpace cs else c :: cs

/-- The predeclared entities `lt`, `gt`, `amp`, `apos` and `quot`. -/
def entityChar (n : List Char) : Option Char :=
  if n = ['l', 't'] then some '<'
  else if n = ['g', 't'] then some '>'
  else if n = ['a', 'm', 'p'] then some '&'
  else if n = ['a', 'p', 'o', 's'] then some '\''
  else if n = ['q', 'u', 'o', 't'] then some '"'
  else none

/-- The value of a hexadecimal or decimal digit. -/
def hexDigitValue (c : Char) : Nat :=
  if 48 ≤ c.toNat && c.toNat ≤ 57 then c.toNat - 48
  else if 97 ≤ c.toNat && c.toNat ≤ 102 then c.toNat - 87
  else c.toNat - 55

/-- The digits a character reference of the given base may contain. -/
def isDigitOf (base : Nat) (c : Char) : Bool :=
  (48 ≤ c.toNat && c.toNat ≤ 57) ||
  (base = 16 && ((97 ≤ c.toNat && c.toNat ≤ 102) || (65 ≤ c.toNat && c.toNat ≤ 70)))

/-- Conversion `string(rune(n))` for `n` up to `unicode.MaxRune`: a surrogate
becomes U+FFFD. -/
def runeOf (n : Nat) : Char :=
  if 0xD800 ≤ n && n ≤ 0xDFFF then Char.ofNat 0xFFFD else Char.ofNat n

/-- The text for the digits of a character reference: the number must parse
and not exceed `unicode.MaxRune`. -/
def charRef (base : Nat) (digits : List Char) : Option Char :=
  if digits = [] then none
  else
    let n := digits.foldl (fun a c => a * base + hexDigitValue c) 0
    if n ≤ 0x10FFFF then some (runeOf n) else none

/-- The part of `text` that follows `&`: a character reference or one of the
predeclared entities, closed by `;`. In strict mode everything else is the
error "invalid character entity". -/
def readEntity (T : XmlTables) (input : List Char) : Option (Char × List Char) :=
  match input with
  | [] => none
  | '#' :: rest =>
    let base := match rest with
      | 'x' :: _ => 16
      | _ => 10
    let rest1 := match rest with
      | 'x' :: r => r
      | r => r
    match (rest1.span (isDigitOf base)) with
    | (digits, ';' :: rest2) =>
      match charRef base digits with
      | none => none
      | some c => some (c, rest2)
    | _ => none
  | _ =>
    match readName input with
    | some (n, ';' :: rest) =>
      if isName T n then
        match entityChar n with
        | none => none
        | some c => some (c, rest)
      else none
    | _ => none

/-- The loop of `text(quote, cdata)`: `b0` and `b1` are the two bytes read
before, `acc` the buffer. The result is the buffer and the remaining input. -/
def textLoop (T : XmlTables) (quote : Option Char) (cdata : Bool) :
    Nat → Char → Char → List Char → List Char → Option (List Char × List Char)
  | 0, _, _, _, _ => none
  | _ + 1, _, _, acc, [] => if cdata then none else some (acc, [])
  | fuel + 1, b0, b1, acc, b :: rest =>
    if b0 = ']' && b1 = ']' && b = '>' then
      (if cdata then some (acc.take (acc.length - 2), rest) else none)
    else if b = '<' && !cdata then
      (if quote.isSome then none else some (acc, b :: rest))
    else if quote = some b then some (acc, rest)
    else if b = '&' && !cdata then
      match readEntity T rest with
      | none => none
      | some (c, rest1) => textLoop T quote cdata fuel (Char.ofNat 0) (Char.ofNat 0) (acc ++ [c]) rest1
    else if b = '\r' then textLoop T quote cdata fuel b1 b (acc ++ ['\n']) rest
    else if b1 = '\r' && b = '\n' then textLoop T quote cdata fuel b1 b acc rest
    else textLoop T quote cdata fuel b1 b (acc ++ [b]) rest

/-- Method `text(quote, cdata)`: the loop, then the check that every
character is one XML allows. -/
def text (T : XmlTables) (quote : Option Char) (cdata : Bool) (input : List Char) :
    Option (List Char × List Char) :=
  match textLoop T quote cdata (input.length + 1) (Char.ofNat 0) (Char.ofNat 0) [] input with
  | none => none
  | some (data, rest) => if data.all isInCharacterRange then some (data, rest) else none

/-- Method `attrval` in strict mode: a quoted value. -/
def attrval (T : XmlTables) : List Char → Option (List Char × List Char)
  | [] => none
  | b :: rest => if b = '"' || b = '\'' then text T (some b) false rest else none

/-- The attribute loop of `rawToken`: the attributes, whether the tag ended
in `/>`, and the input after the tag. -/
def attrLoop (T : XmlTables) :
    Nat → List (Name × List Char) → List Char → Option (List (Name × List Char) × Bool × List Char)
  | 0, _, _ => none
  | fuel + 1, acc, input =>
    match skipSpace input with
    | [] => none
    | '/' :: rest =>
      (match rest with
      | '>' :: rest1 => some (acc, true, rest1)
      | _ => none)
    | '>' :: rest => some (acc, false, rest)
    | b :: rest =>
      match nsname T (b :: rest) with
      | none => none
      | some (n, rest1) =>
        match skipSpace rest1 with
        | '=' :: rest2 =>
          (match attrval T (skipSpace rest2) with
          | none => none
          | some (v, rest3) => attrLoop T fuel (acc ++ [(n, v)]) rest3)
        | _ => none

/-- The end of a comment: everything up to `-->`; `--` not followed by `>` is
an error. -/
def commentLoop : Char → Char → List Char → Option (List Char)
  | _, _, [] => none
  | b0, b1, b :: rest =>
    if b0 = '-' && b1 = '-' then (if b = '>' then some rest else none)
    else commentLoop b1 b rest

/-- The end of a processing instruction: the content before `?>` and what
follows it. -/
def procInstLoop : Char → List Char → List Char → Option (List Char × List Char)
  | _, _, [] => none
  | b0, acc, b :: rest =>
    if b0 = '?' && b = '>' then some (acc.take (acc.length - 1), rest)
    else procInstLoop b (acc ++ [b]) rest

/-- A comment inside a directive: everything up to `-->`. -/
def directiveComment : Char → Char → List Char → Option (List Char)
  | _, _, [] => none
  | b0, b1, b :: rest =>
    if b0 = '-' && b1 = '-' && b = '>' then some rest else directiveComment b1 b rest

/-- The directive loop of `rawToken`: quoted angle brackets do not count for
nesting, comments are skipped. `handle` is set when the byte at the head is
the one a failed look-ahead for `<!--` stopped at (label `HandleB`). -/
def directiveLoop : Nat → Bool → Char → Nat → List Char → Option (List Char)
  | 0, _, _, _, _ => none
  | _ + 1, _, _, _, [] => none
  | fuel + 1, handle, inquote, depth, b :: rest =>
    if !handle && inquote = Char.ofNat 0 && b = '>' && depth = 0 then some rest
    else if b = inquote then directiveLoop fuel false (Char.ofNat 0) depth rest
    else if inquote ≠ Char.ofNat 0 then directiveLoop fuel false inquote depth rest
    else if b = '\'' || b = '"' then directiveLoop fuel false b depth rest
    else if b = '>' then directiveLoop fuel false inquote (depth - 1) rest
    else if b = '<' then
      match rest with
      | '!' :: '-' :: '-' :: rest1 =>
        (match directiveComment (Char.ofNat 0) (Char.ofNat 0) rest1 with
        | none => none
        | some rest2 => directiveLoop fuel false inquote depth rest2)
      | '!' :: '-' :: c :: rest1 => directiveLoop fuel true inquote (depth + 1) (c :: rest1)
      | '!' :: c :: rest1 => directiveLoop fuel true inquote (depth + 1) (c :: rest1)
      | '!' :: [] => none
      | c :: rest1 => directiveLoop fuel true inquote (depth + 1) (c :: rest1)
      | [] => none
    else directiveLoop fuel false inquote depth rest

/-- Method `rawToken` in strict mode. -/
def rawToken (T : XmlTables) (input : List Char) : Option (Token × List Char) :=
  match input with
  | [] => none
  | '<' :: rest =>
    (match rest with
    | [] => none
    | '/' :: r =>
      (match nsname T r with
      | none => none
      | some (n, r1) =>
        match skipSpace r1 with
        | '>' :: r2 => some (.endElement n, r2)
        | _ => none)
    | '?' :: r =>
      (match name T r with
      | none => none
      | some (target, r1) =>
        match procInstLoop (Char.ofNat 0) [] (skipSpace r1) with
        | none => none
        | some (content, r2) =>
          if target = ['x', 'm', 'l'] && !T.declOK content then none
          else some (.procInst, r2))
    | '!' :: r =>
      (match r with
      | [] => none
      | '-' :: r1 =>
        (match r1 with
        | '-' :: r2 => (commentLoop (Char.ofNat 0) (Char.ofNat 0) r2).map (fun r3 => (.comment, r3))
        | _ => none)
      | '[' :: r1 =>
        (match r1 with
        | 'C' :: 'D' :: 'A' :: 'T' :: 'A' :: '[' :: r2 =>
          (text T none true r2).map (fun p => (.charData p.1, p.2))
        | _ => none)
      | _ :: r1 =>
        (directiveLoop (r1.length + 1) false (Char.ofNat 0) 0 r1).map (fun r2 => (.directive, r2)))
    | _ =>
      match nsname T rest with
      | none => none
      | some (n, r1) =>
        match attrLoop T (r1.length + 1) [] r1 with
        | none => none
        | some (attrs, empty, r2) => some (.startElement n attrs empty, r2))
  | _ => (text T none false input).map (fun p => (.charData p.1, p.2))

/-- The attributes of an element as the struct mapping sees them: local name
and value. -/
def attrPairs (attrs : List (Name × List Char)) : List (String × String) :=
  attrs.map (fun a => (String.mk a.1.Local, String.mk a.2))

/-- The tokens up to the end element that closes the element just opened,
as nodes; the result carries the name of that end element, the input before
it and the input after it. The end element must match the start element. -/
def content (T : XmlTables) :
    Nat → List Char → Option (List XNode × Name × List Char × List Char)
  | 0, _ => none
  | fuel + 1, input =>
    match rawToken T input with
    | none => none
    | some (.endElement n, rest) => some ([], n, input, rest)
    | some (.charData data, rest) =>
      (match content T fuel rest with
      | none => none
      | some (nodes, n, before, after) => some (.text (String.mk data) :: nodes, n, before, after))
    | some (.comment, rest) => content T fuel rest
    | some (.procInst, rest) => content T fuel rest
    | some (.directive, rest) => content T fuel rest
    | some (.startElement n attrs true, rest) =>
      (match content T fuel rest with
      | none => none
      | some (nodes, m, before, after) =>
        some (.elem (String.mk n.Local) (attrPairs attrs) [] :: nodes, m, before, after))
    | some (.startElement n attrs false, rest) =>
      match content T fuel rest with
      | none => none
      | some (children, m, _, rest1) =>
        if m = n then
          match content T fuel rest1 with
          | none => none
          | some (nodes, k, before, after) =>
            some (.elem (String.mk n.Local) (attrPairs attrs) children :: nodes, k, before, after)
        else none

/-- The tokens before the first start element are passed over by
`Unmarshal`; an end element there is an error, and so is the end of the
input. -/
def firstElement (T : XmlTables) : Nat → List Char → Option Parsed
  | 0, _ => none
  | fuel + 1, input =>
    match rawToken T input with
    | none => none
    | some (.endElement _, _) => none
    | some (.startElement n attrs true, _) =>
      some { name := String.mk n.Local, attrs := attrPairs attrs, children := [], inner := "" }
    | some (.startElement n attrs false, rest) =>
      (match content T (rest.length + 1) rest with
      | none => none
      | some (children, m, before, _) =>
        if m = n then
          some { name := String.mk n.Local, attrs := attrPairs attrs, children := children,
                 inner := String.mk (rest.take (rest.length - before.length)) }
        else none)
    | some (_, rest) => firstElement T fuel rest

/-- The tokenizer of `encoding/xml` on the text of a document: the first
element and its content. -/
def xmlTokens (T : XmlTables) (document : String) : Option Parsed :=
  firstElement T (document.length + 1) document.toList

/-- Call `xml.Unmarshal([]byte(document), &netscapeBookmark)`. -/
def decodeDocument (T : XmlTables) (document : String) : Option NetscapeBookmark :=
  (xmlTokens T document).bind unmarshalDocument

/-! ## Notions used in the statements -/

/-- Whether the pass for `url` gets as far as inserting a row. -/
def inserts (w : World) (url : String) (o : Outcome) : Bool :=
  o.capture.isSome && !o.insertFails && !(w.rows.any (fun r => r.URL == url))

/-- Whether the pass for `url` runs to the end. -/
def completes (w : World) (url : String) (o : Outcome) : Bool :=
  inserts w url o && decide (o.write = .ok) && !o.updateFails

/-- Every row with a non-empty thumbnail reference refers to an existing
file. -/
def ThumbnailsExist (w : World) : Prop :=
  ∀ r ∈ w.rows, r.Thumbnail ≠ "" → r.Thumbnail ∈ w.files.map Prod.fst

/-- The number K of the claim: the entries whose URL is capturable and is
neither in `seen` (the stored URLs, then also the earlier entries) nor equal
to the URL of an earlier entry. -/
def freshCount (cap : String → Bool) : List String → List String → Nat
  | _, [] => 0
  | seen, u :: us =>
    (if cap u && !(seen.contains u) then 1 else 0) + freshCount cap (u :: seen) us

/-- Reachable is the set of states the handlers produce from the state after
`initDB`, whatever the inputs and the outcomes. -/
inductive Reachable : World → Prop where
  | init : Reachable initDB
  | add (w : World) (url : String) (o : Outcome) :
      Reachable w → Reachable (addBookmark w url o).1
  | imported (tokens : Bytes → Option Parsed) (w : World) (upload : Upload)
      (os : Nat → Outcome) :
      Reachable w → Reachable (importNetscapeBookmarks tokens w upload os).1
  | deleted (affinity : String → Option Int) (w : World) (param : String) (fails : Bool) :
      Reachable w → Reachable (deleteBookmark affinity w param fails).1

/-- Every thumbnail reference in the table is empty or derived from the id of
its row. -/
def NamedById (w : World) : Prop :=
  ∀ r ∈ w.rows, r.Thumbnail = "" ∨ r.Thumbnail = thumbnailPath r.ID

mutual
/-- The `HREF` attributes of every `<A>` element at or below a node, in
document order. -/
def XNode.linkHrefs : XNode → List String
  | .text _ => []
  | .elem name attrs children =>
    (if name = "A" then (attrs.filter (fun a => a.1 = "HREF")).map (fun a => a.2) else []) ++
      linkHrefsList children
/-- The `HREF` attributes of every `<A>` element at or below a list of nodes. -/
def linkHrefsList : List XNode → List String
  | [] => []
  | n :: ns => n.linkHrefs ++ linkHrefsList ns
end

/-- The child elements with a given name: attributes and children of each. -/
def childElems (name : String) (children : List XNode) :
    List (List (String × String) × List XNode) :=
  children.filterMap (fun n => match n with
    | .elem nm attrs cs => if nm = name then some (attrs, cs) else none
    | .text _ => none)

/-- The last element of a list, or `d` for the empty list. -/
def lastOr (d : String) (l : List String) : String :=
  l.getLast?.getD d

/-- The `HREF` of the `<A>` directly inside a `<DT>`: the last `HREF`
attribute among the `<A>` children, the empty string when there is none. -/
def directHref (dtChildren : List XNode) : String :=
  lastOr "" (((childElems "A" dtChildren).map
    (fun a => (a.1.filter (fun kv => kv.1 = "HREF")).map (fun kv => kv.2))).flatten)

/-- The `<DT>` elements directly inside a `<DL>` directly inside the root, in
document order; each is given by its children. -/
def topLevelEntries (p : Parsed) : List (List XNode) :=
  ((childElems "DL" p.children).map (fun dl => (childElems "DT" dl.2).map (fun dt => dt.2))).flatten

/-- What decoding makes of a character the printer wrote: a character XML
does not allow has become U+FFFD. -/
def sanitizeChar (c : Char) : Char :=
  if isInCharacterRange c then c else Char.ofNat 0xFFFD

/-- A string after a round trip through the printer and the decoder. -/
def sanitize (s : String) : String :=
  String.mk (s.toList.map sanitizeChar)

/-- The value of a decimal digit character. -/
def digitValue (c : Char) : Nat := c.toNat - 48

/-- Horner evaluation of a list of decimal digits on top of `acc`. -/
def decimalValue (acc : Nat) (cs : List Char) : Nat :=
  cs.foldl (fun a c => a * 10 + digitValue c) acc

/-! ## An exported document, character by character -/

/-- The characters of the start tag `<A HREF="..." ADD_DATE="...">` as the
printer writes it, followed by `rest`. -/
def anchorTag (u d rest : List Char) : List Char :=
  '<' :: 'A' :: (" HREF=\"".toList ++ (escapeChars u ++ '"' ::
    (" ADD_DATE=\"".toList ++ (escapeChars d ++ '"' :: '>' :: rest))))

/-- The attributes the decoder reads from that start tag. -/
def anchorAttrs (u d : List Char) : List (Name × List Char) :=
  [(⟨[], "HREF".toList⟩, u.map sanitizeChar), (⟨[], "ADD_DATE".toList⟩, d.map sanitizeChar)]

/-- The characters of one `<DT>` entry without heading as the printer writes
it (URL `u`, add-date `d`), followed by `rest`. -/
def dtChars (u d rest : List Char) : List Char :=
  "\n        <DT>\n            ".toList ++
    anchorTag u d ("</A>\n        </DT>".toList ++ rest)

/-- The nodes the decoder builds for one such entry. -/
def dtNodes (u d : List Char) : List XNode :=
  [.text "\n        ",
   .elem "DT" [] [.text "\n            ", .elem "A" (attrPairs (anchorAttrs u d)) [],
     .text "\n        "]]

/-- The characters of a sequence of entries, followed by `rest`. -/
def dtsChars : List (List Char × List Char) → List Char → List Char
  | [], rest => rest
  | e :: es, rest => dtChars e.1 e.2 (dtsChars es rest)

/-- The nodes of a sequence of entries. -/
def dtsNodes : List (List Char × List Char) → List XNode
  | [] => []
  | e :: es => dtNodes e.1 e.2 ++ dtsNodes es

/-- The characters between the root start tag and `<DL>` in an exported
document. -/
def headerChars : List Char :=
  ("DOCTYPE NETSCAPE-Bookmark-file-1\n    <META http-equiv=\"Content-Type\" " ++
    "content=\"text/html; charset=UTF-8\"></META>\n    <TITLE>Bookmarks</TITLE>\n    " ++
    "<H1>Bookmarks</H1>\n    ").toList

/-- The nodes the decoder builds for `headerChars`. -/
def headerNodes : List XNode :=
  [.text "DOCTYPE NETSCAPE-Bookmark-file-1\n    ",
   .elem "META" [("http-equiv", "Content-Type"), ("content", "text/html; charset=UTF-8")] [],
   .text "\n    ", .elem "TITLE" [] [.text "Bookmarks"],
   .text "\n    ", .elem "H1" [] [.text "Bookmarks"], .text "\n    "]

/-- The characters between `<DL>` and `</DL>`, followed by `rest`. -/
def dlBody : List (List Char × List Char) → List Char → List Char
  | [], rest => rest
  | e :: es, rest => dtsChars (e :: es) ("\n    ".toList ++ rest)

/-- The children of `<DL>` in an exported document. -/
def dlNodes : List (List Char × List Char) → List XNode
  | [] => []
  | e :: es => dtsNodes (e :: es) ++ [.text "\n    "]

/-- The characters of an exported document after the root start tag. -/
def rootBody (es : List (List Char × List Char)) : List Char :=
  headerChars ++ ("<DL>".toList ++ dlBody es "</DL>\n</NETSCAPE-Bookmark-file-1>".toList)

/-- The characters of an exported document. -/
def documentChars (es : List (List Char × List Char)) : List Char :=
  "<!DOCTYPE NETSCAPE-Bookmark-file-1>\n<NETSCAPE-Bookmark-file-1>".toList ++ rootBody es

/-- The children of the root element of an exported document. -/
def rootNodes (es : List (List Char × List Char)) : List XNode :=
  headerNodes ++ [.elem "DL" [] (dlNodes es), .text "\n"]

/-- The root element of an exported document as the tokenizer delivers it. -/
def rootParsed (es : List (List Char × List Char)) (inner : String) : Parsed :=
  { name := "NETSCAPE-Bookmark-file-1", attrs := [], children := rootNodes es, inner := inner }

/-- URL and add-date of an entry as characters. -/
def entryChars (dt : DTEntry) : List Char × List Char :=
  (dt.A.HREF.toList, dt.A.AddDate.toList)

/-! ## Sample values -/

/-- A store with one bookmark and its thumbnail. -/
def sampleWorld : World :=
  { rows := [{ ID := 1, URL := "https://example.com", Thumbnail := "thumbnails/1.png" }],
    seq := 1, files := [("thumbnails/1.png", [137, 80, 78, 71])],
    captured := ["https://example.com"] }

/-- An outcome in which every step succeeds. -/
def allGood : Outcome :=
  { capture := some [137, 80, 78, 71], insertFails := false, write := .ok, updateFails := false }

/-- An outcome in which `os.WriteFile` fails at `OpenFile`; every other step
succeeds. -/
def writeFails : Outcome :=
  { capture := some [137, 80, 78, 71], insertFails := false, write := .openFailed,
    updateFails := false }

/-- A document whose root element is `<html>`: the tokenizer accepts it, the
struct mapping does not. -/
def htmlRoot : Parsed :=
  { name := "html", attrs := [],
    children := [.elem "DL" [] [.elem "DT" [] [.elem "A" [("HREF", "https://go.dev")] []]]],
    inner := "<DL><DT><A HREF=\"https://go.dev\"></A></DT></DL>" }

/-- A document with two entries, the second inside the list. -/
def twoLinks : Parsed :=
  { name := "NETSCAPE-Bookmark-file-1", attrs := [],
    children := [.elem "TITLE" [] [.text "Bookmarks"],
      .elem "DL" [] [
        .elem "DT" [] [.elem "A" [("HREF", "https://example.com"), ("ADD_DATE", "1")] []],
        .elem "DT" [] [.elem "A" [("HREF", "https://go.dev"), ("ADD_DATE", "2")] []]]],
    inner := "" }

/-- A document with a single entry. -/
def oneLink : Parsed :=
  { name := "NETSCAPE-Bookmark-file-1", attrs := [],
    children := [.elem "DL" [] [.elem "DT" [] [.elem "A" [("HREF", "https://example.com")] []]]],
    inner := "" }

/-- A document with a folder: the second `<DT>` holds a heading and a nested
list with one link. -/
def nestedFolder : Parsed :=
  { name := "NETSCAPE-Bookmark-file-1", attrs := [],
    children := [.elem "TITLE" [] [.text "Bookmarks"],
      .elem "DL" [] [
        .elem "DT" [] [.elem "A" [("HREF", "https://example.com"), ("ADD_DATE", "1")] []],
        .elem "DT" [] [.elem "H3" [] [.text "Folder"],
          .elem "DL" [] [
            .elem "DT" [] [.elem "A" [("HREF", "https://go.dev"), ("ADD_DATE", "2")] []]]]]],
    inner := "" }

/-- The value `nestedFolder` decodes to. -/
def nestedFolderDecoded : NetscapeBookmark :=
  { XMLName := "NETSCAPE-Bookmark-file-1", DOCTYPE := "",
    META := { HTTPEquiv := "", Content := "" }, TITLE := "Bookmarks", H1 := "",
    DL := { DT := [{ H3 := "", A := { HREF := "https://example.com", AddDate := "1" } },
                   { H3 := "Folder", A := { HREF := "", AddDate := "" } }] } }

/-- Tables that accept no name character from U+0080 on and every
`<?xml ...?>` declaration. -/
def asciiTables : XmlTables :=
  { first := fun _ => false, second := fun _ => false, declOK := fun _ => true }

/-- A store whose only URL contains the control character U+0001. -/
def controlCharWorld : World :=
  { rows := [{ ID := 1, URL := "https://example.com/\x01", Thumbnail := "thumbnails/1.png" }],
    seq := 1, files := [("thumbnails/1.png", [137, 80, 78, 71])], captured := [] }

/-- A store with two bookmarks. -/
def twoBookmarks : World :=
  { rows := [{ ID := 1, URL := "https://example.com/?a=1&b=\"2\"", Thumbnail := "" },
             { ID := 2, URL := "https://go.dev/<doc>", Thumbnail := "thumbnails/2.png" }],
    seq := 2, files := [("thumbnails/2.png", [137, 80, 78, 71])], captured := [] }

/-! # Part 2: theorems -/

/-! ## Facts about the statements and the file store -/

theorem foldr_max_ge_mem (rows : List Bookmark) (s : Int) (r : Bookmark) (h : r ∈ rows) :
    r.ID ≤ rows.foldr (fun r m => max r.ID m) s := by
  induction rows with
  | nil => cases h
  | cons a rs ih =>
    simp only [List.foldr_cons]
    rcases List.mem_cons.1 h with h1 | h1
    · subst h1; exact le_max_left _ _
    · exact le_trans (ih h1) (le_max_right _ _)

/-- The rowid of a new row is larger than every rowid in the table. -/
theorem nextRowid_gt (w : World) (r : Bookmark) (h : r ∈ w.rows) : r.ID < nextRowid w := by
  have := foldr_max_ge_mem w.rows w.seq r h
  unfold nextRowid
  omega

theorem nextRowid_ne (w : World) (r : Bookmark) (h : r ∈ w.rows) : r.ID ≠ nextRowid w :=
  ne_of_lt (nextRowid_gt w r h)

theorem any_url_iff (rows : List Bookmark) (url : String) :
    rows.any (fun r => r.URL == url) = true ↔ url ∈ rows.map (fun r => r.URL) := by
  simp only [List.any_eq_true, beq_iff_eq, List.mem_map]

theorem mem_putFile (files : List (String × Bytes)) (path : String) (data : Bytes) :
    path ∈ (putFile files path data).map Prod.fst := by
  unfold putFile
  split
  · rename_i h
    obtain ⟨f, hf, hp⟩ := List.any_eq_true.1 h
    simp only [beq_iff_eq] at hp
    simp only [List.map_map, List.mem_map, Function.comp]
    exact ⟨f, hf, by simp [hp]⟩
  · simp

theorem mem_putFile_of_mem (files : List (String × Bytes)) (path q : String) (data : Bytes)
    (h : q ∈ files.map Prod.fst) : q ∈ (putFile files path data).map Prod.fst := by
  unfold putFile
  split
  · simp only [List.map_map, List.mem_map, Function.comp] at h ⊢
    obtain ⟨f, hf, hq⟩ := h
    refine ⟨f, hf, ?_⟩
    by_cases hp : f.1 = path
    · simp [hp, ← hq]
    · rw [if_neg hp]; exact hq
  · simp only [List.map_append, List.mem_append]
    exact Or.inl h

/-! ## One pass through capture, insert, write and update -/

theorem map_set_fresh (rows : List Bookmark) (id : Int) (th : String)
    (h : ∀ r ∈ rows, r.ID ≠ id) :
    rows.map (fun r => if r.ID = id then { r with Thumbnail := th } else r) = rows := by
  induction rows with
  | nil => rfl
  | cons a rs ih =>
    have ha : a.ID ≠ id := h a (List.mem_cons_self _ _)
    have hrs : ∀ r ∈ rs, r.ID ≠ id := fun r hr => h r (List.mem_cons_of_mem _ hr)
    simp only [List.map_cons, if_neg ha, ih hrs]

/-- The rows after one pass of the loop body. -/
theorem importEntry_rows (w : World) (n : Nat) (url : String) (o : Outcome) :
    (importEntry w n url o).1.rows =
      if inserts w url o then
        w.rows ++ [{ ID := nextRowid w, URL := url,
                     Thumbnail := if completes w url o then thumbnailPath (nextRowid w) else "" }]
      else w.rows := by
  obtain ⟨cap, ins, wr, upd⟩ := o
  have hfresh : ∀ th : String, (w.rows ++ [({ ID := nextRowid w, URL := url, Thumbnail := "" } : Bookmark)]).map
      (fun r => if r.ID = nextRowid w then { r with Thumbnail := th } else r) =
      w.rows ++ [{ ID := nextRowid w, URL := url, Thumbnail := th }] := by
    intro th
    rw [List.map_append, map_set_fresh w.rows _ _ (fun r hr => nextRowid_ne w r hr)]
    simp
  have hn : nextRowid ⟨w.rows, w.seq, w.files, w.captured ++ [url]⟩ = nextRowid w := rfl
  cases cap with
  | none => simp [importEntry, captureScreenshot, inserts]
  | some shot =>
    cases ins with
    | true => simp [importEntry, captureScreenshot, inserts, execInsert]
    | false =>
      by_cases hu : w.rows.any (fun r => r.URL == url) = true
      · simp [importEntry, captureScreenshot, inserts, execInsert, hu]
      · have hu' : w.rows.any (fun r => r.URL == url) = false := by
          simpa using hu
        cases wr with
        | ok =>
          cases upd with
          | true =>
            simp [importEntry, captureScreenshot, inserts, completes, execInsert, hu',
              writeFile, execUpdate, hn]
          | false =>
            simp only [importEntry, captureScreenshot, inserts, completes, execInsert, hu',
              writeFile, execUpdate, hn]
            simp [hfresh]
        | openFailed =>
          simp [importEntry, captureScreenshot, inserts, completes, execInsert, hu', writeFile, hn]
        | writeFailed k =>
          simp [importEntry, captureScreenshot, inserts, completes, execInsert, hu', writeFile, hn]

/-- The counter after one pass of the loop body. -/
theorem importEntry_count (w : World) (n : Nat) (url : String) (o : Outcome) :
    (importEntry w n url o).2 = n + (if completes w url o then 1 else 0) := by
  obtain ⟨cap, ins, wr, upd⟩ := o
  by_cases hu : w.rows.any (fun r => r.URL == url) = true
  · cases cap <;> cases ins <;>
      simp [importEntry, captureScreenshot, inserts, completes, execInsert, hu]
  · have hu' : w.rows.any (fun r => r.URL == url) = false := by simpa using hu
    cases cap <;> cases ins <;> cases wr <;> cases upd <;>
      simp [importEntry, captureScreenshot, inserts, completes, execInsert, hu', writeFile,
        execUpdate]

/-- A pass never removes a thumbnail file. -/
theorem importEntry_files_mono (w : World) (n : Nat) (url : String) (o : Outcome) (q : String)
    (h : q ∈ w.files.map Prod.fst) : q ∈ (importEntry w n url o).1.files.map Prod.fst := by
  obtain ⟨cap, ins, wr, upd⟩ := o
  by_cases hu : w.rows.any (fun r => r.URL == url) = true
  · cases cap <;> cases ins <;>
      simpa [importEntry, captureScreenshot, execInsert, hu] using h
  · have hu' : w.rows.any (fun r => r.URL == url) = false := by simpa using hu
    cases cap <;> cases ins <;> cases wr <;> cases upd <;>
      simp only [importEntry, captureScreenshot, execInsert, hu', writeFile, execUpdate] <;>
      first
        | exact h
        | exact mem_putFile_of_mem _ _ _ _ h

/-- A pass that runs to the end leaves the thumbnail file of the new row. -/
theorem importEntry_file_written (w : World) (n : Nat) (url : String) (o : Outcome)
    (h : completes w url o = true) :
    thumbnailPath (nextRowid w) ∈ (importEntry w n url o).1.files.map Prod.fst := by
  obtain ⟨cap, ins, wr, upd⟩ := o
  have hn : nextRowid ⟨w.rows, w.seq, w.files, w.captured ++ [url]⟩ = nextRowid w := rfl
  by_cases hu : w.rows.any (fun r => r.URL == url) = true
  · simp [completes, inserts, hu] at h
  · have hu' : w.rows.any (fun r => r.URL == url) = false := by simpa using hu
    cases cap <;> cases ins <;> cases wr <;> cases upd <;>
      simp [completes, inserts, hu'] at h
    simp only [importEntry, captureScreenshot, execInsert, hu', writeFile, execUpdate, hn]
    simp only [Bool.false_eq_true, if_false]
    exact mem_putFile _ _ _

/-- Handler `addBookmark` changes the state exactly as one pass of the import
loop does. -/
theorem addBookmark_world (w : World) (n : Nat) (url : String) (o : Outcome) (h : url ≠ "") :
    (addBookmark w url o).1 = (importEntry w n url o).1 := by
  obtain ⟨cap, ins, wr, upd⟩ := o
  by_cases hu : w.rows.any (fun r => r.URL == url) = true
  · cases cap <;> cases ins <;>
      simp [addBookmark, importEntry, h, captureScreenshot, execInsert, hu]
  · have hu' : w.rows.any (fun r => r.URL == url) = false := by simpa using hu
    cases cap <;> cases ins <;> cases wr <;> cases upd <;>
      simp [addBookmark, importEntry, h, captureScreenshot, execInsert, hu', writeFile,
        execUpdate]

theorem importEntry_rows_mono (w : World) (n : Nat) (url : String) (o : Outcome) (r : Bookmark)
    (h : r ∈ w.rows) : r ∈ (importEntry w n url o).1.rows := by
  rw [importEntry_rows]
  split
  · exact List.mem_append_left _ h
  · exact h

theorem importEntry_thumbnails (w : World) (n : Nat) (url : String) (o : Outcome)
    (h : ThumbnailsExist w) : ThumbnailsExist (importEntry w n url o).1 := by
  intro r hr hne
  rw [importEntry_rows] at hr
  by_cases hi : inserts w url o = true
  · rw [if_pos hi] at hr
    rcases List.mem_append.1 hr with h1 | h1
    · exact importEntry_files_mono w n url o _ (h r h1 hne)
    · rw [List.mem_singleton] at h1
      subst h1
      by_cases hc : completes w url o = true
      · simp only [hc, if_true]
        exact importEntry_file_written w n url o hc
      · simp [hc] at hne
  · rw [if_neg hi] at hr
    exact importEntry_files_mono w n url o _ (h r hr hne)

/-- The rows after a pass whose capture fails. -/
theorem importEntry_capture_failed (w : World) (n : Nat) (url : String) (o : Outcome)
    (h : o.capture = none) : (importEntry w n url o).1.rows = w.rows := by
  rw [importEntry_rows]
  simp [inserts, h]

/-- The rows after a pass that inserts and then fails to write the file or to
update the row. -/
theorem importEntry_second_phase_failed (w : World) (n : Nat) (url : String) (o : Outcome)
    (hc : o.capture.isSome = true) (hi : o.insertFails = false)
    (hu : url ∉ w.rows.map (fun r => r.URL))
    (hf : o.write ≠ .ok ∨ o.updateFails = true) :
    (importEntry w n url o).1.rows =
      w.rows ++ [{ ID := nextRowid w, URL := url, Thumbnail := "" }] := by
  have hany : w.rows.any (fun r => r.URL == url) = false := by
    rw [Bool.eq_false_iff]
    exact fun h => hu ((any_url_iff _ _).1 h)
  have h1 : inserts w url o = true := by simp [inserts, hc, hi, hany]
  have h2 : completes w url o = false := by
    rcases hf with hf | hf
    · simp [completes, hf]
    · simp [completes, hf]
  rw [importEntry_rows, if_pos h1]
  simp [h2]

theorem importEntry_named (w : World) (n : Nat) (url : String) (o : Outcome)
    (h : NamedById w) : NamedById (importEntry w n url o).1 := by
  intro r hr
  rw [importEntry_rows] at hr
  split at hr
  · rcases List.mem_append.1 hr with h1 | h1
    · exact h r h1
    · rw [List.mem_singleton] at h1
      subst h1
      by_cases hc : completes w url o = true
      · right; simp [hc]
      · left; simp [hc]
  · exact h r hr

/-! ## The import loop -/

theorem importLoop_append (w : World) (n : Nat) (xs ys : List DTEntry) (os : Nat → Outcome) :
    importLoop w n (xs ++ ys) os =
      importLoop (importLoop w n xs os).1 (importLoop w n xs os).2 ys
        (fun i => os (i + xs.length)) := by
  induction xs generalizing w n os with
  | nil => simp [importLoop]
  | cons x xs ih =>
    rw [List.cons_append]
    simp only [importLoop, List.length_cons]
    rw [ih]
    rfl

/-- The loop never removes or changes a row that is already stored. -/
theorem importLoop_rows_mono (w : World) (n : Nat) (dts : List DTEntry) (os : Nat → Outcome)
    (r : Bookmark) (h : r ∈ w.rows) : r ∈ (importLoop w n dts os).1.rows := by
  induction dts generalizing w n os with
  | nil => exact h
  | cons dt rest ih =>
    simp only [importLoop]
    exact ih _ _ _ (importEntry_rows_mono w n dt.A.HREF (os 0) r h)

theorem importLoop_thumbnails (w : World) (n : Nat) (dts : List DTEntry) (os : Nat → Outcome)
    (h : ThumbnailsExist w) : ThumbnailsExist (importLoop w n dts os).1 := by
  induction dts generalizing w n os with
  | nil => exact h
  | cons dt rest ih =>
    simp only [importLoop]
    exact ih _ _ _ (importEntry_thumbnails w n dt.A.HREF (os 0) h)

/-- The state the import handler leaves when the upload decodes. -/
theorem import_world (tokens : Bytes → Option Parsed) (w : World) (bytes : Bytes)
    (os : Nat → Outcome) (nb : NetscapeBookmark) (h : xmlUnmarshal tokens bytes = some nb) :
    importNetscapeBookmarks tokens w (.content bytes) os =
      ((importLoop w 0 nb.DL.DT os).1, .html 200 "message"
        ("Successfully imported " ++ toString (importLoop w 0 nb.DL.DT os).2 ++
          " new bookmarks")) := by
  simp [importNetscapeBookmarks, h]

/-- The state after the first `i + 1` entries is the state after the first `i`
entries followed by the pass of entry `i`. -/
theorem importLoop_take_succ (w : World) (dts : List DTEntry) (os : Nat → Outcome) (i : Nat)
    (dt : DTEntry) (h : dts[i]? = some dt) :
    (importLoop w 0 (dts.take (i + 1)) os).1 =
      (importEntry (importLoop w 0 (dts.take i) os).1 (importLoop w 0 (dts.take i) os).2
        dt.A.HREF (os i)).1 := by
  have hlt : i < dts.length := by
    by_contra hc
    rw [List.getElem?_eq_none (by omega)] at h
    cases h
  have hlen : (dts.take i).length = i := by
    rw [List.length_take]; omega
  rw [List.take_succ, h, Option.toList_some, importLoop_append, hlen]
  simp [importLoop]

/-- Whatever is stored after the first `i` entries is still stored when the
loop ends. -/
theorem importLoop_take_mono (w : World) (dts : List DTEntry) (os : Nat → Outcome) (i : Nat)
    (r : Bookmark) (h : r ∈ (importLoop w 0 (dts.take i) os).1.rows) :
    r ∈ (importLoop w 0 dts os).1.rows := by
  have hsplit : importLoop w 0 dts os = importLoop w 0 (dts.take i ++ dts.drop i) os := by
    rw [List.take_append_drop]
  rw [hsplit, importLoop_append]
  exact importLoop_rows_mono _ _ _ _ r h

/-- The loop under outcomes in which the capture of an entry succeeds exactly
for the capturable URLs and no later step fails. -/
theorem importLoop_isolated (cap : String → Bool) (w : World) (n : Nat) (dts : List DTEntry)
    (os : Nat → Outcome) (seen : List String)
    (hseen : ∀ u, cap u = true → (u ∈ seen ↔ u ∈ w.rows.map (fun r => r.URL)))
    (hos : ∀ (i : Nat) (dt : DTEntry), dts[i]? = some dt →
      (os i).capture.isSome = cap dt.A.HREF ∧ (os i).insertFails = false ∧
      (os i).write = .ok ∧ (os i).updateFails = false) :
    (importLoop w n dts os).2 = n + freshCount cap seen (dts.map (fun dt => dt.A.HREF)) ∧
    (importLoop w n dts os).1.rows.length =
      w.rows.length + freshCount cap seen (dts.map (fun dt => dt.A.HREF)) := by
  induction dts generalizing w n os seen with
  | nil => simp [importLoop, freshCount]
  | cons dt rest ih =>
    obtain ⟨hcap, hins, hwr, hupd⟩ := hos 0 dt (by simp)
    have hrest : ∀ (i : Nat) (d : DTEntry), rest[i]? = some d →
        (os (i + 1)).capture.isSome = cap d.A.HREF ∧ (os (i + 1)).insertFails = false ∧
        (os (i + 1)).write = .ok ∧ (os (i + 1)).updateFails = false := by
      intro i d hd
      exact hos (i + 1) d (by simpa using hd)
    have hinserts : inserts w dt.A.HREF (os 0) =
        (cap dt.A.HREF && !(w.rows.any (fun r => r.URL == dt.A.HREF))) := by
      simp [inserts, hcap, hins]
    have hcompletes : completes w dt.A.HREF (os 0) = inserts w dt.A.HREF (os 0) := by
      simp [completes, hwr, hupd]
    have hfresh : (cap dt.A.HREF && !(seen.contains dt.A.HREF)) = inserts w dt.A.HREF (os 0) := by
      rw [hinserts]
      cases hc : cap dt.A.HREF with
      | false => simp
      | true =>
        simp only [Bool.true_and]
        congr 1
        rw [Bool.eq_iff_iff, any_url_iff, ← hseen _ hc]
        simp
    have hrows := importEntry_rows w n dt.A.HREF (os 0)
    have hcount := importEntry_count w n dt.A.HREF (os 0)
    rw [hcompletes] at hrows hcount
    have hseen' : ∀ u, cap u = true →
        (u ∈ dt.A.HREF :: seen ↔
          u ∈ (importEntry w n dt.A.HREF (os 0)).1.rows.map (fun r => r.URL)) := by
      intro u hu
      rw [hrows]
      by_cases hi : inserts w dt.A.HREF (os 0) = true
      · simp only [hi, if_true, List.map_append, List.map_cons, List.map_nil, List.mem_append,
          List.mem_singleton, List.mem_cons]
        rw [hseen u hu]
        tauto
      · simp only [hi, Bool.false_eq_true, if_false, List.mem_cons]
        constructor
        · rintro (h1 | h1)
          · subst h1
            rw [hinserts, hu] at hi
            simp only [Bool.true_and, Bool.not_eq_true', Bool.not_eq_false] at hi
            exact (any_url_iff _ _).1 hi
          · exact (hseen u hu).1 h1
        · intro h1
          exact Or.inr ((hseen u hu).2 h1)
    obtain ⟨ih1, ih2⟩ := ih (importEntry w n dt.A.HREF (os 0)).1
      (importEntry w n dt.A.HREF (os 0)).2 (fun i => os (i + 1)) (dt.A.HREF :: seen) hseen' hrest
    simp only [importLoop, List.map_cons, freshCount]
    rw [ih1, ih2, hcount, hrows, hfresh]
    by_cases hi : inserts w dt.A.HREF (os 0) = true
    · simp only [hi, if_true, List.length_append, List.length_singleton]
      omega
    · simp only [hi, Bool.false_eq_true, if_false]
      omega

theorem importLoop_named (w : World) (n : Nat) (dts : List DTEntry) (os : Nat → Outcome)
    (h : NamedById w) : NamedById (importLoop w n dts os).1 := by
  induction dts generalizing w n os with
  | nil => exact h
  | cons dt rest ih =>
    simp only [importLoop]
    exact ih _ _ _ (importEntry_named w n dt.A.HREF (os 0) h)

/-! ## Import isolation (C1) -/

/-- C1, the counterexample to the claim as stated: one entry, capturable and
not stored (K = 1); the file write fails, so the row stays stored and the
handler reports 0 imported bookmarks. -/
theorem import_isolation_counterexample :
    freshCount (fun _ => true) (initDB.rows.map (fun r => r.URL))
      ["https://example.com"] = 1 ∧
    (xmlUnmarshal (fun _ => some oneLink) [60]).map importURLs =
      some ["https://example.com"] ∧
    (importNetscapeBookmarks (fun _ => some oneLink)
      initDB (.content [60]) (fun _ => { allGood with write := .openFailed })).2 =
        .html 200 "message" "Successfully imported 0 new bookmarks" ∧
    (importNetscapeBookmarks (fun _ => some oneLink)
      initDB (.content [60]) (fun _ => { allGood with write := .openFailed })).1.rows.length =
        initDB.rows.length + 1 := by
  decide

/-- C1, amended. Import isolation: for every initial store and every
successfully decoded list of entries, let K count the entries whose URL is
capturable and neither stored already nor the URL of an earlier entry (every
other entry being a duplicate or capture-failing). If no `INSERT` fails for a
reason other than uniqueness and every thumbnail file write and thumbnail
update succeeds, then the import reports an imported count of K and the number
of rows grows by exactly K. -/
theorem import_isolation (cap : String → Bool) (tokens : Bytes → Option Parsed) (w : World)
    (bytes : Bytes) (os : Nat → Outcome) (nb : NetscapeBookmark)
    (hdec : xmlUnmarshal tokens bytes = some nb)
    (hos : ∀ (i : Nat) (dt : DTEntry), nb.DL.DT[i]? = some dt →
      (os i).capture.isSome = cap dt.A.HREF ∧ (os i).insertFails = false ∧
      (os i).write = .ok ∧ (os i).updateFails = false) :
    (importNetscapeBookmarks tokens w (.content bytes) os).2 =
      .html 200 "message" ("Successfully imported " ++
        toString (freshCount cap (w.rows.map (fun r => r.URL)) (importURLs nb)) ++
        " new bookmarks") ∧
    (importNetscapeBookmarks tokens w (.content bytes) os).1.rows.length =
      w.rows.length + freshCount cap (w.rows.map (fun r => r.URL)) (importURLs nb) := by
  obtain ⟨h1, h2⟩ := importLoop_isolated cap w 0 nb.DL.DT os (w.rows.map (fun r => r.URL))
    (fun _ _ => Iff.rfl) hos
  rw [import_world tokens w bytes os nb hdec]
  simp only [h1, h2, importURLs, Nat.zero_add]
  exact ⟨trivial, trivial⟩

/-- C1 (amended) at concrete inputs: importing `twoLinks` into `sampleWorld`,
which already stores the first of the two URLs. -/
theorem import_isolation_witness :
    (importNetscapeBookmarks (fun _ => some twoLinks) sampleWorld (.content [60])
      (fun _ => allGood)).2 = .html 200 "message" "Successfully imported 1 new bookmarks" ∧
    (importNetscapeBookmarks (fun _ => some twoLinks) sampleWorld (.content [60])
      (fun _ => allGood)).1.rows.length = sampleWorld.rows.length + 1 :=
  import_isolation (fun _ => true) (fun _ => some twoLinks) sampleWorld [60] (fun _ => allGood)
    _ rfl (fun _ _ _ => ⟨rfl, rfl, rfl, rfl⟩)

/-! ## The struct mapping of the decoder -/

theorem lastOr_append (d : String) (l1 l2 : List String) :
    lastOr d (l1 ++ l2) = lastOr (lastOr d l1) l2 := by
  unfold lastOr
  rw [List.getLast?_append]
  cases h : l2.getLast? with
  | none => simp
  | some x => simp

theorem unmarshalAnchorAttrs_HREF (a : Anchor) (attrs : List (String × String)) :
    (unmarshalAnchorAttrs a attrs).HREF =
      lastOr a.HREF ((attrs.filter (fun kv => kv.1 = "HREF")).map (fun kv => kv.2)) := by
  unfold unmarshalAnchorAttrs
  induction attrs generalizing a with
  | nil => simp [lastOr]
  | cons kv rest ih =>
    rw [List.foldl_cons, ih]
    by_cases h1 : kv.1 = "HREF"
    · simp only [h1, if_true, List.filter_cons, decide_True, List.map_cons]
      rw [← List.singleton_append, lastOr_append]
      simp [lastOr]
    · by_cases h2 : kv.1 = "ADD_DATE"
      · simp [h1, h2, List.filter_cons]
      · simp [h1, h2, List.filter_cons]

theorem unmarshalDT_fold_HREF (e : DTEntry) (cs : List XNode) :
    (cs.foldl unmarshalDTChild e).A.HREF =
      lastOr e.A.HREF (((childElems "A" cs).map
        (fun a => (a.1.filter (fun kv => kv.1 = "HREF")).map (fun kv => kv.2))).flatten) := by
  induction cs generalizing e with
  | nil => simp [childElems, lastOr]
  | cons c rest ih =>
    rw [List.foldl_cons, ih]
    cases c with
    | text t => simp [unmarshalDTChild, childElems]
    | elem name attrs sub =>
      by_cases h1 : name = "H3"
      · have h2 : name ≠ "A" := by rw [h1]; decide
        simp [unmarshalDTChild, childElems, h1, h2]
      · by_cases h2 : name = "A"
        · subst h2
          simp only [unmarshalDTChild, childElems, if_neg h1, if_true, List.filterMap_cons,
            List.map_cons, List.flatten_cons]
          rw [lastOr_append, unmarshalAnchorAttrs_HREF]
        · simp [unmarshalDTChild, childElems, h1, h2]

theorem unmarshalDL_fold_DT (dl : DLList) (cs : List XNode) :
    (cs.foldl unmarshalDLChild dl).DT =
      dl.DT ++ (childElems "DT" cs).map (fun dt => unmarshalDT dt.2) := by
  induction cs generalizing dl with
  | nil => simp [childElems]
  | cons c rest ih =>
    rw [List.foldl_cons, ih]
    cases c with
    | text t => simp [unmarshalDLChild, childElems]
    | elem name attrs sub =>
      by_cases h1 : name = "DT"
      · simp [unmarshalDLChild, childElems, h1]
      · simp [unmarshalDLChild, childElems, h1]

theorem unmarshalRoot_fold_DT (nb : NetscapeBookmark) (cs : List XNode) :
    (cs.foldl unmarshalRootChild nb).DL.DT =
      nb.DL.DT ++ ((childElems "DL" cs).map
        (fun dl => (childElems "DT" dl.2).map (fun dt => unmarshalDT dt.2))).flatten := by
  induction cs generalizing nb with
  | nil => simp [childElems]
  | cons c rest ih =>
    rw [List.foldl_cons, ih]
    cases c with
    | text t => simp [unmarshalRootChild, childElems]
    | elem name attrs sub =>
      by_cases h1 : name = "META"
      · have h2 : name ≠ "DL" := by rw [h1]; decide
        simp [unmarshalRootChild, childElems, h1, h2]
      · by_cases h2 : name = "TITLE"
        · have h3 : name ≠ "DL" := by rw [h2]; decide
          simp [unmarshalRootChild, childElems, h2, h3]
        · by_cases h3 : name = "H1"
          · have h4 : name ≠ "DL" := by rw [h3]; decide
            simp [unmarshalRootChild, childElems, h3, h4]
          · by_cases h4 : name = "DL"
            · subst h4
              simp only [unmarshalRootChild, childElems, if_neg h1, if_neg h2, if_neg h3,
                if_true, List.filterMap_cons, List.map_cons, List.flatten_cons]
              rw [unmarshalDL_fold_DT, List.append_assoc]
              rfl
            · simp [unmarshalRootChild, childElems, h1, h2, h3, h4]

/-- The URLs the import loop visits after the struct mapping has run over the
children of the root element. -/
theorem importURLs_fold (nb : NetscapeBookmark) (children : List XNode) :
    importURLs (children.foldl unmarshalRootChild nb) =
      importURLs nb ++ (((childElems "DL" children).map
        (fun dl => (childElems "DT" dl.2).map (fun dt => dt.2))).flatten).map directHref := by
  unfold importURLs
  rw [unmarshalRoot_fold_DT]
  simp only [List.map_append, List.map_flatten, List.map_map]
  congr 2
  apply List.map_congr_left
  intro dl _
  simp only [Function.comp, List.map_map]
  apply List.map_congr_left
  intro dt _
  simp only [Function.comp, unmarshalDT, directHref]
  rw [unmarshalDT_fold_HREF]

theorem childElems_append (name : String) (xs ys : List XNode) :
    childElems name (xs ++ ys) = childElems name xs ++ childElems name ys := by
  simp [childElems, List.filterMap_append]

/-! ## The export loop -/

theorem exportLoop_DT (nb : NetscapeBookmark) (bookmarks : List Bookmark) (now : Nat → Int) :
    (exportLoop nb bookmarks now).DL.DT =
      nb.DL.DT ++ (List.range bookmarks.length).zipWith
        (fun i b => ({ H3 := "", A := { HREF := b.URL, AddDate := toString (now i) } } : DTEntry))
        bookmarks := by
  induction bookmarks generalizing nb now with
  | nil => simp [exportLoop]
  | cons b bs ih =>
    simp only [exportLoop, ih, List.length_cons, List.range_succ_eq_map, List.zipWith_cons_cons,
      List.append_assoc, List.singleton_append, List.zipWith_map_left]

theorem exportLoop_header (nb : NetscapeBookmark) (bookmarks : List Bookmark) (now : Nat → Int) :
    (exportLoop nb bookmarks now).DOCTYPE = nb.DOCTYPE ∧
    (exportLoop nb bookmarks now).META = nb.META ∧
    (exportLoop nb bookmarks now).TITLE = nb.TITLE ∧
    (exportLoop nb bookmarks now).H1 = nb.H1 := by
  induction bookmarks generalizing nb now with
  | nil => exact ⟨rfl, rfl, rfl, rfl⟩
  | cons b bs ih =>
    simp only [exportLoop]
    exact ih _ _

theorem exportLoop_H3 (nb : NetscapeBookmark) (bookmarks : List Bookmark) (now : Nat → Int)
    (h : ∀ dt ∈ nb.DL.DT, dt.H3 = "") :
    ∀ dt ∈ (exportLoop nb bookmarks now).DL.DT, dt.H3 = "" := by
  induction bookmarks generalizing nb now with
  | nil => exact h
  | cons b bs ih =>
    simp only [exportLoop]
    apply ih
    intro dt hdt
    rcases List.mem_append.1 hdt with h1 | h1
    · exact h dt h1
    · rw [List.mem_singleton] at h1
      rw [h1]

theorem exportLoop_HREF (nb : NetscapeBookmark) (bookmarks : List Bookmark) (now : Nat → Int) :
    (exportLoop nb bookmarks now).DL.DT.map (fun dt => dt.A.HREF) =
      nb.DL.DT.map (fun dt => dt.A.HREF) ++ bookmarks.map (fun b => b.URL) := by
  induction bookmarks generalizing nb now with
  | nil => simp [exportLoop]
  | cons b bs ih =>
    simp only [exportLoop]
    rw [ih]
    simp

/-! ## The decoder reads back what the printer wrote -/

theorem isInCharacterRange_sanitizeChar (c : Char) : isInCharacterRange (sanitizeChar c) = true := by
  unfold sanitizeChar
  split
  · assumption
  · decide

theorem sanitize_of_allowed (s : String)
    (h : ∀ c ∈ s.toList, isInCharacterRange c = true) : sanitize s = s := by
  unfold sanitize
  have : s.toList.map sanitizeChar = s.toList.map id := by
    apply List.map_congr_left
    intro c hc
    simp [sanitizeChar, h c hc]
  rw [this, List.map_id]
  rfl

theorem textLoop_plain_step (T : XmlTables) (quote : Option Char) (fuel : Nat) (b0 b1 b : Char)
    (acc rest : List Char)
    (h1 : b ≠ '>') (h2 : b ≠ '<') (h3 : quote ≠ some b) (h4 : b ≠ '&') (h5 : b ≠ '\r')
    (h6 : b ≠ '\n') :
    textLoop T quote false (fuel + 1) b0 b1 acc (b :: rest) =
      textLoop T quote false fuel b1 b (acc ++ [b]) rest := by
  rw [textLoop]
  simp [h1, h2, h3, h4, h5, h6]

theorem textLoop_entity_step (T : XmlTables) (quote : Option Char) (fuel : Nat) (b0 b1 c : Char)
    (acc ent rest : List Char) (hq : quote ≠ some '&')
    (h : readEntity T (ent ++ rest) = some (c, rest)) :
    textLoop T quote false (fuel + 1) b0 b1 acc ('&' :: (ent ++ rest)) =
      textLoop T quote false fuel (Char.ofNat 0) (Char.ofNat 0) (acc ++ [c]) rest := by
  rw [textLoop]
  simp [h, hq]

/-- The printer writes a character either as a reference the decoder reads
back, or as itself, and then it is none of the characters the decoder treats
specially. -/
theorem escapeChar_cases (c : Char) :
    (∃ ent, escapeChar c = '&' :: ent ∧
      ∀ (T : XmlTables) (rest : List Char),
        readEntity T (ent ++ rest) = some (sanitizeChar c, rest)) ∨
    (escapeChar c = [sanitizeChar c] ∧ sanitizeChar c ≠ '>' ∧ sanitizeChar c ≠ '<' ∧
      sanitizeChar c ≠ '"' ∧ sanitizeChar c ≠ '&' ∧ sanitizeChar c ≠ '\r' ∧
      sanitizeChar c ≠ '\n') := by
  by_cases h1 : c = '"'
  · subst h1; exact Or.inl ⟨"#34;".toList, rfl, fun _ _ => rfl⟩
  by_cases h2 : c = '\''
  · subst h2; exact Or.inl ⟨"#39;".toList, rfl, fun _ _ => rfl⟩
  by_cases h3 : c = '&'
  · subst h3; exact Or.inl ⟨"amp;".toList, rfl, fun _ _ => rfl⟩
  by_cases h4 : c = '<'
  · subst h4; exact Or.inl ⟨"lt;".toList, rfl, fun _ _ => rfl⟩
  by_cases h5 : c = '>'
  · subst h5; exact Or.inl ⟨"gt;".toList, rfl, fun _ _ => rfl⟩
  by_cases h6 : c = '\t'
  · subst h6; exact Or.inl ⟨"#x9;".toList, rfl, fun _ _ => rfl⟩
  by_cases h7 : c = '\n'
  · subst h7; exact Or.inl ⟨"#xA;".toList, rfl, fun _ _ => rfl⟩
  by_cases h8 : c = '\r'
  · subst h8; exact Or.inl ⟨"#xD;".toList, rfl, fun _ _ => rfl⟩
  right
  by_cases hr : isInCharacterRange c = true
  · have hs : sanitizeChar c = c := by simp [sanitizeChar, hr]
    rw [hs]
    exact ⟨by simp [escapeChar, h1, h2, h3, h4, h5, h6, h7, h8, hr], h5, h4, h1, h3, h8, h7⟩
  · have hs : sanitizeChar c = Char.ofNat 0xFFFD := by simp [sanitizeChar, hr]
    rw [hs]
    exact ⟨by simp [escapeChar, h1, h2, h3, h4, h5, h6, h7, h8, hr],
      by decide, by decide, by decide, by decide, by decide, by decide⟩

/-- The loop of `text` reads back what the printer wrote for an attribute
value, up to the closing quote. -/
theorem textLoop_escaped (T : XmlTables) (s : List Char) (fuel : Nat) (b0 b1 : Char)
    (acc rest : List Char) (hf : s.length < fuel) :
    textLoop T (some '"') false fuel b0 b1 acc (escapeChars s ++ '"' :: rest) =
      some (acc ++ s.map sanitizeChar, rest) := by
  induction s generalizing fuel b0 b1 acc with
  | nil =>
    obtain ⟨f, rfl⟩ : ∃ f, fuel = f + 1 := ⟨fuel - 1, by simp at hf; omega⟩
    simp [escapeChars, textLoop]
  | cons c s ih =>
    obtain ⟨f, rfl⟩ : ∃ f, fuel = f + 1 := ⟨fuel - 1, by simp at hf; omega⟩
    have hf' : s.length < f := by simp at hf; omega
    rcases escapeChar_cases c with ⟨ent, he, hr⟩ | ⟨he, g1, g2, g3, g4, g5, g6⟩
    · simp only [escapeChars, he, List.cons_append, List.append_assoc]
      rw [textLoop_entity_step T (some '"') f b0 b1 (sanitizeChar c) acc ent _ (by decide)
        (hr T _), ih f _ _ _ hf']
      simp
    · simp only [escapeChars, he, List.cons_append, List.nil_append]
      rw [textLoop_plain_step T (some '"') f b0 b1 (sanitizeChar c) acc _ g1 g2
        (by simpa using fun h => g3 h.symm) g4 g5 g6, ih f _ _ _ hf']
      simp

theorem length_le_escapeChars (s : List Char) : s.length ≤ (escapeChars s).length := by
  induction s with
  | nil => simp [escapeChars]
  | cons c s ih =>
    have : 1 ≤ (escapeChar c).length := by
      rcases escapeChar_cases c with ⟨ent, he, _⟩ | ⟨he, _⟩
      · rw [he]; simp
      · rw [he]; simp
    simp only [escapeChars, List.length_append, List.length_cons]
    omega

/-- Method `text` reads back an attribute value the printer wrote. -/
theorem text_escaped (T : XmlTables) (s rest : List Char) :
    text T (some '"') false (escapeChars s ++ '"' :: rest) =
      some (s.map sanitizeChar, rest) := by
  unfold text
  rw [textLoop_escaped T s _ _ _ [] rest (by
    have := length_le_escapeChars s
    simp only [List.length_append, List.length_cons]
    omega)]
  simp [isInCharacterRange_sanitizeChar]

theorem attrLoop_HREF (T : XmlTables) (f : Nat) (acc : List (Name × List Char))
    (u rest : List Char) :
    attrLoop T (f + 1) acc (" HREF=\"".toList ++ (escapeChars u ++ '"' :: rest)) =
      attrLoop T f (acc ++ [(⟨[], "HREF".toList⟩, u.map sanitizeChar)]) rest := by
  have h : attrLoop T (f + 1) acc (" HREF=\"".toList ++ (escapeChars u ++ '"' :: rest)) =
      (match text T (some '"') false (escapeChars u ++ '"' :: rest) with
        | none => none
        | some (v, r3) => attrLoop T f (acc ++ [(⟨[], "HREF".toList⟩, v)]) r3) := rfl
  rw [h, text_escaped]

theorem attrLoop_ADD_DATE (T : XmlTables) (f : Nat) (acc : List (Name × List Char))
    (d rest : List Char) :
    attrLoop T (f + 1) acc (" ADD_DATE=\"".toList ++ (escapeChars d ++ '"' :: rest)) =
      attrLoop T f (acc ++ [(⟨[], "ADD_DATE".toList⟩, d.map sanitizeChar)]) rest := by
  have h : attrLoop T (f + 1) acc (" ADD_DATE=\"".toList ++ (escapeChars d ++ '"' :: rest)) =
      (match text T (some '"') false (escapeChars d ++ '"' :: rest) with
        | none => none
        | some (v, r3) => attrLoop T f (acc ++ [(⟨[], "ADD_DATE".toList⟩, v)]) r3) := rfl
  rw [h, text_escaped]

theorem rawToken_anchorTag (T : XmlTables) (u d rest : List Char) :
    rawToken T (anchorTag u d rest) =
      some (.startElement ⟨[], ['A']⟩ (anchorAttrs u d) false, rest) := by
  have h : rawToken T (anchorTag u d rest) =
      (match attrLoop T ((" HREF=\"".toList ++ (escapeChars u ++ '"' ::
          (" ADD_DATE=\"".toList ++ (escapeChars d ++ '"' :: '>' :: rest)))).length + 1) []
          (" HREF=\"".toList ++ (escapeChars u ++ '"' ::
            (" ADD_DATE=\"".toList ++ (escapeChars d ++ '"' :: '>' :: rest)))) with
        | none => none
        | some (attrs, empty, r2) => some (.startElement ⟨[], ['A']⟩ attrs empty, r2)) := rfl
  rw [h]
  obtain ⟨f, hf⟩ : ∃ f, (" HREF=\"".toList ++ (escapeChars u ++ '"' ::
      (" ADD_DATE=\"".toList ++ (escapeChars d ++ '"' :: '>' :: rest)))).length + 1 = f + 3 := by
    refine ⟨(" HREF=\"".toList ++ (escapeChars u ++ '"' ::
      (" ADD_DATE=\"".toList ++ (escapeChars d ++ '"' :: '>' :: rest)))).length - 2, ?_⟩
    simp only [List.length_append, List.length_cons]
    have : (" HREF=\"".toList).length = 7 := rfl
    omega
  rw [hf, attrLoop_HREF, attrLoop_ADD_DATE]
  rfl

theorem content_charData (T : XmlTables) (f : Nat) (input data rest : List Char)
    (h : rawToken T input = some (.charData data, rest)) :
    content T (f + 1) input =
      (match content T f rest with
        | none => none
        | some (nodes, n, before, after) =>
          some (.text (String.mk data) :: nodes, n, before, after)) := by
  rw [content, h]

theorem content_startElement (T : XmlTables) (f : Nat) (input rest rest1 before : List Char)
    (n : Name) (attrs : List (Name × List Char)) (children : List XNode)
    (h : rawToken T input = some (.startElement n attrs false, rest))
    (hc : content T f rest = some (children, n, before, rest1)) :
    content T (f + 1) input =
      (match content T f rest1 with
        | none => none
        | some (nodes, k, before, after) =>
          some (.elem (String.mk n.Local) (attrPairs attrs) children :: nodes, k, before,
            after)) := by
  rw [content, h]
  simp only [hc, if_true]

theorem content_dt_inner (T : XmlTables) (f : Nat) (u d rest : List Char) :
    content T (f + 4)
        ("\n            ".toList ++ anchorTag u d ("</A>\n        </DT>".toList ++ rest)) =
      some ([.text "\n            ", .elem "A" (attrPairs (anchorAttrs u d)) [],
          .text "\n        "], ⟨[], "DT".toList⟩, "</DT>".toList ++ rest, rest) := by
  have t1 : rawToken T
      ("\n            ".toList ++ anchorTag u d ("</A>\n        </DT>".toList ++ rest)) =
      some (.charData "\n            ".toList,
        anchorTag u d ("</A>\n        </DT>".toList ++ rest)) := rfl
  have c2 : content T (f + 2) ("</A>\n        </DT>".toList ++ rest) =
      some ([], ⟨[], ['A']⟩, "</A>\n        </DT>".toList ++ rest,
        "\n        </DT>".toList ++ rest) := rfl
  rw [content_charData T (f + 3) _ _ _ t1]
  rw [content_startElement T (f + 2) _ _ _ _ _ _ _
    (rawToken_anchorTag T u d ("</A>\n        </DT>".toList ++ rest)) c2]
  rfl

theorem content_dt (T : XmlTables) (f : Nat) (u d rest : List Char) :
    content T (f + 6) (dtChars u d rest) =
      (match content T (f + 4) rest with
        | none => none
        | some (nodes, n, before, after) => some (dtNodes u d ++ nodes, n, before, after)) := by
  have t1 : rawToken T (dtChars u d rest) =
      some (.charData "\n        ".toList,
        "<DT>\n            ".toList ++ anchorTag u d ("</A>\n        </DT>".toList ++ rest)) :=
    rfl
  have t2 : rawToken T
      ("<DT>\n            ".toList ++ anchorTag u d ("</A>\n        </DT>".toList ++ rest)) =
      some (.startElement ⟨[], "DT".toList⟩ [] false,
        "\n            ".toList ++ anchorTag u d ("</A>\n        </DT>".toList ++ rest)) :=
    rfl
  rw [content_charData T (f + 5) _ _ _ t1]
  rw [content_startElement T (f + 4) _ _ _ _ _ _ _ t2 (content_dt_inner T f u d rest)]
  cases content T (f + 4) rest with
  | none => rfl
  | some r => rfl

/-- The decoder reads a sequence of entries and goes on with what follows. -/
theorem content_dts (T : XmlTables) (es : List (List Char × List Char)) (f : Nat)
    (rest : List Char) (nodes : List XNode) (n : Name) (before after : List Char)
    (h : content T (f + 4) rest = some (nodes, n, before, after)) :
    content T (f + 4 + 2 * es.length) (dtsChars es rest) =
      some (dtsNodes es ++ nodes, n, before, after) := by
  induction es with
  | nil => simpa [dtsChars, dtsNodes] using h
  | cons e es ih =>
    have hfuel : f + 4 + 2 * (e :: es).length = (f + 2 * es.length) + 6 := by
      simp only [List.length_cons]; omega
    rw [hfuel, dtsChars, content_dt]
    have hfuel2 : f + 2 * es.length + 4 = f + 4 + 2 * es.length := by omega
    rw [hfuel2, ih]
    simp [dtsNodes]

theorem length_dtsChars (es : List (List Char × List Char)) (rest : List Char) :
    2 * es.length + rest.length ≤ (dtsChars es rest).length := by
  induction es with
  | nil => simp [dtsChars]
  | cons e es ih =>
    simp only [dtsChars, dtChars, anchorTag, List.length_append, List.length_cons]
    omega

theorem content_header (T : XmlTables) (f : Nat) (rest cs : List Char) (nodes : List XNode)
    (n : Name) (before after : List Char) (hrest : rest = '<' :: cs)
    (h : content T (f + 2) rest = some (nodes, n, before, after)) :
    content T (f + 9) (headerChars ++ rest) = some (headerNodes ++ nodes, n, before, after) := by
  have t0 : rawToken T (headerChars ++ rest) =
      some (.charData "DOCTYPE NETSCAPE-Bookmark-file-1\n    ".toList,
        ("<META http-equiv=\"Content-Type\" content=\"text/html; charset=UTF-8\"></META>" ++
          "\n    <TITLE>Bookmarks</TITLE>\n    <H1>Bookmarks</H1>\n    ").toList ++ rest) := rfl
  have t1 : rawToken T
      (("<META http-equiv=\"Content-Type\" content=\"text/html; charset=UTF-8\"></META>" ++
          "\n    <TITLE>Bookmarks</TITLE>\n    <H1>Bookmarks</H1>\n    ").toList ++ rest) =
      some (.startElement ⟨[], "META".toList⟩
        [(⟨[], "http-equiv".toList⟩, "Content-Type".toList),
         (⟨[], "content".toList⟩, "text/html; charset=UTF-8".toList)] false,
        "</META>\n    <TITLE>Bookmarks</TITLE>\n    <H1>Bookmarks</H1>\n    ".toList ++ rest) :=
    rfl
  have c1 : content T (f + 7)
      ("</META>\n    <TITLE>Bookmarks</TITLE>\n    <H1>Bookmarks</H1>\n    ".toList ++ rest) =
      some ([], ⟨[], "META".toList⟩,
        "</META>\n    <TITLE>Bookmarks</TITLE>\n    <H1>Bookmarks</H1>\n    ".toList ++ rest,
        "\n    <TITLE>Bookmarks</TITLE>\n    <H1>Bookmarks</H1>\n    ".toList ++ rest) := rfl
  have t2 : rawToken T
      ("\n    <TITLE>Bookmarks</TITLE>\n    <H1>Bookmarks</H1>\n    ".toList ++ rest) =
      some (.charData "\n    ".toList,
        "<TITLE>Bookmarks</TITLE>\n    <H1>Bookmarks</H1>\n    ".toList ++ rest) := rfl
  have t3 : rawToken T ("<TITLE>Bookmarks</TITLE>\n    <H1>Bookmarks</H1>\n    ".toList ++ rest) =
      some (.startElement ⟨[], "TITLE".toList⟩ [] false,
        "Bookmarks</TITLE>\n    <H1>Bookmarks</H1>\n    ".toList ++ rest) := rfl
  have c3 : content T (f + 5) ("Bookmarks</TITLE>\n    <H1>Bookmarks</H1>\n    ".toList ++ rest) =
      some ([.text "Bookmarks"], ⟨[], "TITLE".toList⟩,
        "</TITLE>\n    <H1>Bookmarks</H1>\n    ".toList ++ rest,
        "\n    <H1>Bookmarks</H1>\n    ".toList ++ rest) := rfl
  have t4 : rawToken T ("\n    <H1>Bookmarks</H1>\n    ".toList ++ rest) =
      some (.charData "\n    ".toList, "<H1>Bookmarks</H1>\n    ".toList ++ rest) := rfl
  have t5 : rawToken T ("<H1>Bookmarks</H1>\n    ".toList ++ rest) =
      some (.startElement ⟨[], "H1".toList⟩ [] false,
        "Bookmarks</H1>\n    ".toList ++ rest) := rfl
  have c5 : content T (f + 3) ("Bookmarks</H1>\n    ".toList ++ rest) =
      some ([.text "Bookmarks"], ⟨[], "H1".toList⟩, "</H1>\n    ".toList ++ rest,
        "\n    ".toList ++ rest) := rfl
  have t6 : rawToken T ("\n    ".toList ++ rest) =
      some (.charData "\n    ".toList, rest) := by
    rw [hrest]; rfl
  have c6 : content T (f + 3) ("\n    ".toList ++ rest) =
      some (.text "\n    " :: nodes, n, before, after) := by
    rw [content_charData T (f + 2) _ _ _ t6, h]
    rfl
  rw [content_charData T (f + 8) _ _ _ t0]
  rw [content_startElement T (f + 7) _ _ _ _ _ _ _ t1 c1]
  rw [content_charData T (f + 6) _ _ _ t2]
  rw [content_startElement T (f + 5) _ _ _ _ _ _ _ t3 c3]
  rw [content_charData T (f + 4) _ _ _ t4]
  rw [content_startElement T (f + 3) _ _ _ _ _ _ _ t5 c5]
  rw [c6]
  rfl

theorem content_dl_inner (T : XmlTables) (es : List (List Char × List Char)) (f : Nat)
    (rest : List Char) :
    content T (f + 4 + 2 * es.length) (dlBody es ("</DL>".toList ++ rest)) =
      some (dlNodes es, ⟨[], "DL".toList⟩, "</DL>".toList ++ rest, rest) := by
  cases es with
  | nil => rfl
  | cons e es =>
    have h : content T (f + 4) ("\n    ".toList ++ ("</DL>".toList ++ rest)) =
        some ([.text "\n    "], ⟨[], "DL".toList⟩, "</DL>".toList ++ rest, rest) := rfl
    simp only [dlBody, dlNodes]
    exact content_dts T (e :: es) f _ _ _ _ _ h

/-- The decoder reads the content of the root element of an exported
document. -/
theorem content_rootBody (T : XmlTables) (es : List (List Char × List Char)) (f : Nat) :
    content T (f + 12 + 2 * es.length) (rootBody es) =
      some (rootNodes es, ⟨[], "NETSCAPE-Bookmark-file-1".toList⟩,
        "</NETSCAPE-Bookmark-file-1>".toList, []) := by
  have t1 : rawToken T ("<DL>".toList ++ dlBody es "</DL>\n</NETSCAPE-Bookmark-file-1>".toList) =
      some (.startElement ⟨[], "DL".toList⟩ [] false,
        dlBody es "</DL>\n</NETSCAPE-Bookmark-file-1>".toList) := rfl
  have c1 := content_dl_inner T es f "\n</NETSCAPE-Bookmark-file-1>".toList
  have c2 : content T (f + 2 * es.length + 2 + 2) "\n</NETSCAPE-Bookmark-file-1>".toList =
      some ([.text "\n"], ⟨[], "NETSCAPE-Bookmark-file-1".toList⟩,
        "</NETSCAPE-Bookmark-file-1>".toList, []) := rfl
  have e1 : f + 4 + 2 * es.length = f + 2 * es.length + 2 + 2 := by omega
  rw [e1] at c1
  have c3 : content T (f + 2 * es.length + 3 + 2)
      ("<DL>".toList ++ dlBody es "</DL>\n</NETSCAPE-Bookmark-file-1>".toList) =
      some ([.elem "DL" [] (dlNodes es), .text "\n"],
        ⟨[], "NETSCAPE-Bookmark-file-1".toList⟩, "</NETSCAPE-Bookmark-file-1>".toList, []) := by
    rw [content_startElement T (f + 2 * es.length + 2 + 2) _ _ _ _ _ _ _ t1 c1, c2]
    rfl
  have e2 : f + 12 + 2 * es.length = (f + 2 * es.length + 3) + 9 := by omega
  rw [e2]
  exact content_header T (f + 2 * es.length + 3) _ _ _ _ _ _ rfl c3

set_option maxRecDepth 100000 in
theorem length_rootBody (es : List (List Char × List Char)) :
    12 + 2 * es.length ≤ (rootBody es).length := by
  have hh : 12 ≤ headerChars.length := by decide
  have hd : 2 * es.length ≤ (dlBody es "</DL>\n</NETSCAPE-Bookmark-file-1>".toList).length := by
    cases es with
    | nil => simp
    | cons e es =>
      have := length_dtsChars (e :: es)
        ("\n    ".toList ++ "</DL>\n</NETSCAPE-Bookmark-file-1>".toList)
      simp only [dlBody]
      omega
  simp only [rootBody, List.length_append]
  omega

/-- The tokenizer on an exported document: the root element with the header
nodes, the list and the final line break as children. -/
theorem firstElement_documentChars (T : XmlTables) (es : List (List Char × List Char))
    (k : Nat) :
    ∃ inner, firstElement T (k + 3) (documentChars es) =
      some ⟨"NETSCAPE-Bookmark-file-1", [], rootNodes es, inner⟩ := by
  have h : firstElement T (k + 3) (documentChars es) =
      (match content T ((rootBody es).length + 1) (rootBody es) with
        | none => none
        | some (children, m, before, _) =>
          if m = ⟨[], "NETSCAPE-Bookmark-file-1".toList⟩ then
            some { name := "NETSCAPE-Bookmark-file-1", attrs := [], children := children,
                   inner := String.mk ((rootBody es).take
                     ((rootBody es).length - before.length)) }
          else none) := rfl
  obtain ⟨f, hf⟩ : ∃ f, (rootBody es).length + 1 = f + 12 + 2 * es.length :=
    ⟨(rootBody es).length + 1 - (12 + 2 * es.length), by
      have := length_rootBody es
      omega⟩
  rw [h, hf, content_rootBody]
  exact ⟨_, rfl⟩

theorem directHref_dtsNodes (es : List (List Char × List Char)) :
    (childElems "DT" (dtsNodes es)).map (fun dt => directHref dt.2) =
      es.map (fun e => String.mk (e.1.map sanitizeChar)) := by
  induction es with
  | nil => rfl
  | cons e es ih =>
    rw [dtsNodes, childElems_append, List.map_append, ih]
    rfl

theorem directHref_dlNodes (es : List (List Char × List Char)) :
    (childElems "DT" (dlNodes es)).map (fun dt => directHref dt.2) =
      es.map (fun e => String.mk (e.1.map sanitizeChar)) := by
  cases es with
  | nil => rfl
  | cons e es =>
    rw [dlNodes, childElems_append, List.map_append, directHref_dtsNodes]
    simp [childElems]

theorem topLevelEntries_rootNodes (es : List (List Char × List Char)) (inner : String) :
    (topLevelEntries (rootParsed es inner)).map directHref =
      es.map (fun e => String.mk (e.1.map sanitizeChar)) := by
  have h : topLevelEntries (rootParsed es inner) =
      (childElems "DT" (dlNodes es)).map (fun dt => dt.2) ++ [] := rfl
  rw [h, List.append_nil, List.map_map]
  exact directHref_dlNodes es

/-- Decoding the characters of an exported document succeeds and the import
loop would visit the sanitized URLs. -/
theorem decode_documentChars (T : XmlTables) (es : List (List Char × List Char))
    (document : String) (h : document.toList = documentChars es) :
    (decodeDocument T document).map importURLs =
      some (es.map (fun e => String.mk (e.1.map sanitizeChar))) := by
  have hlen : document.length + 1 = (document.length - 2) + 3 := by
    have h2 : document.length = (documentChars es).length := by
      rw [← h]; rfl
    have h3 : 2 ≤ (documentChars es).length := by
      simp only [documentChars, List.length_append]
      have : ("<!DOCTYPE NETSCAPE-Bookmark-file-1>\n<NETSCAPE-Bookmark-file-1>".toList).length
          = 62 := rfl
      omega
    omega
  obtain ⟨inner, hp⟩ := firstElement_documentChars T es (document.length - 2)
  unfold decodeDocument xmlTokens
  rw [h, hlen, hp]
  have hu : unmarshalDocument (rootParsed es inner) =
      some ((rootNodes es).foldl unmarshalRootChild
        { zeroNetscapeBookmark with XMLName := "NETSCAPE-Bookmark-file-1", DOCTYPE := inner }) :=
    rfl
  change (Option.bind (some (rootParsed es inner)) unmarshalDocument).map importURLs = _
  simp only [Option.some_bind, hu, Option.map_some']
  rw [importURLs_fold]
  exact congrArg some (topLevelEntries_rootNodes es inner)

theorem marshalDT_toList (dt : DTEntry) (h : dt.H3 = "") (rest : List Char) :
    (marshalDT dt).toList ++ rest = dtChars dt.A.HREF.toList dt.A.AddDate.toList rest := by
  obtain ⟨h3, ⟨u, d⟩⟩ := dt
  simp only at h
  subst h
  simp only [marshalDT, indentation, indentUnit, escapeString, dtChars, anchorTag,
    String.toList, String.data_append, List.append_assoc, if_true]
  rfl

theorem marshalDTs_toList (dts : List DTEntry) (h : ∀ dt ∈ dts, dt.H3 = "") (rest : List Char) :
    (marshalDTs dts).toList ++ rest = dtsChars (dts.map entryChars) rest := by
  induction dts with
  | nil => rfl
  | cons dt dts ih =>
    have h1 := h dt (List.mem_cons_self _ _)
    have h2 : ∀ x ∈ dts, x.H3 = "" := fun x hx => h x (List.mem_cons_of_mem _ hx)
    simp only [marshalDTs, List.map_cons, dtsChars, entryChars]
    rw [← ih h2, ← marshalDT_toList dt h1]
    simp [String.toList, String.data_append]

theorem marshalDL_toList (dl : DLList) (h : ∀ dt ∈ dl.DT, dt.H3 = "") (rest : List Char) :
    (marshalDL dl).toList ++ rest =
      "\n    <DL>".toList ++ dlBody (dl.DT.map entryChars) ("</DL>".toList ++ rest) := by
  obtain ⟨dts⟩ := dl
  cases dts with
  | nil => rfl
  | cons dt dts =>
    have h1 := marshalDTs_toList (dt :: dts) h ("\n    ".toList ++ ("</DL>".toList ++ rest))
    simp only [List.map_cons, dlBody]
    rw [← List.map_cons, ← h1]
    simp only [marshalDL, indentation, indentUnit, String.toList, String.data_append,
      List.append_assoc]
    rfl

set_option maxRecDepth 100000 in
/-- The text `exportBookmarks` sends for a value with the header of
main.go:214-225 and entries without heading consists of `documentChars`. -/
theorem exportBody_toList (nb : NetscapeBookmark)
    (hD : nb.DOCTYPE = exportHeader.DOCTYPE) (hM : nb.META = exportHeader.META)
    (hT : nb.TITLE = exportHeader.TITLE) (hH : nb.H1 = exportHeader.H1)
    (h3 : ∀ dt ∈ nb.DL.DT, dt.H3 = "") :
    ∃ output, marshalIndent nb = some output ∧
      (exportBody output).toList = documentChars (nb.DL.DT.map entryChars) := by
  refine ⟨_, rfl, ?_⟩
  have h1 := marshalDL_toList nb.DL h3 "\n</NETSCAPE-Bookmark-file-1>".toList
  simp only [exportBody, hD, hM, hT, hH, String.toList, String.data_append, List.append_assoc]
    at h1 ⊢
  rw [h1]
  rfl

/-- Decoding what `exportBookmarks` sends succeeds, and the list the import
loop would visit is the list of stored URLs with every character XML does not
allow replaced by U+FFFD. -/
theorem export_then_decode (T : XmlTables) (w : World) (now : Nat → Int) :
    ∃ body, exportBookmarks w false now =
        .attachment 200 "bookmarks.html" "text/html" body ∧
      (decodeDocument T body).map importURLs =
        some (w.rows.map (fun b => sanitize b.URL)) := by
  obtain ⟨hD, hM, hT, hH⟩ := exportLoop_header exportHeader w.rows now
  have h3 := exportLoop_H3 exportHeader w.rows now (fun dt hdt => by cases hdt)
  obtain ⟨output, hout, hchars⟩ :=
    exportBody_toList (exportDocument w.rows now) hD hM hT hH h3
  refine ⟨exportBody output, ?_, ?_⟩
  · simp [exportBookmarks, getBookmarks, hout]
  · rw [decode_documentChars T _ _ hchars]
    have hurls := exportLoop_HREF exportHeader w.rows now
    have h0 : exportHeader.DL.DT.map (fun dt => dt.A.HREF) = [] := rfl
    rw [h0, List.nil_append] at hurls
    congr 1
    have e1 : ((exportDocument w.rows now).DL.DT.map entryChars).map
        (fun e => String.mk (e.1.map sanitizeChar)) =
        ((exportLoop exportHeader w.rows now).DL.DT.map (fun dt => dt.A.HREF)).map sanitize := by
      rw [List.map_map, List.map_map]
      rfl
    rw [e1, hurls, List.map_map]
    rfl

/-! ## Round trip of the interchange codec (C2) -/

set_option maxRecDepth 1000000 in
/-- C2, the counterexample to the claim as stated: the store holds one
bookmark whose URL contains U+0001; the printer writes U+FFFD in its place,
so decoding the exported document succeeds and yields a URL that is not the
stored one. -/
theorem roundtrip_control_char_counterexample :
    ∃ body, exportBookmarks controlCharWorld false (fun _ => 1700000000) =
        .attachment 200 "bookmarks.html" "text/html" body ∧
      (decodeDocument asciiTables body).map importURLs = some ["https://example.com/\uFFFD"] ∧
      "https://example.com/\x01" ∉ ["https://example.com/\uFFFD"] ∧
      controlCharWorld.rows.map (fun b => b.URL) = ["https://example.com/\x01"] := by
  refine ⟨_, rfl, ?_, by decide, rfl⟩
  decide

/-- C2, amended. Round trip of the interchange codec: for every list of
stored bookmarks whose URLs contain only characters that XML 1.0 allows (tab,
line feed, carriage return, U+0020 to U+D7FF, U+E000 to U+FFFD, U+10000 to
U+10FFFF), decoding the document that `exportBookmarks` produces succeeds and
the URLs read as in `importNetscapeBookmarks` are exactly the stored URLs, in
the same order, hence the same set. -/
theorem export_decode_roundtrip (T : XmlTables) (w : World) (now : Nat → Int)
    (h : ∀ b ∈ w.rows, ∀ c ∈ b.URL.toList, isInCharacterRange c = true) :
    ∃ body nb, exportBookmarks w false now =
        .attachment 200 "bookmarks.html" "text/html" body ∧
      decodeDocument T body = some nb ∧
      importURLs nb = w.rows.map (fun b => b.URL) ∧
      ∀ u, u ∈ importURLs nb ↔ u ∈ w.rows.map (fun b => b.URL) := by
  obtain ⟨body, hbody, hdec⟩ := export_then_decode T w now
  have hs : w.rows.map (fun b => sanitize b.URL) = w.rows.map (fun b => b.URL) := by
    apply List.map_congr_left
    intro b hb
    exact sanitize_of_allowed b.URL (h b hb)
  rw [hs] at hdec
  cases hd : decodeDocument T body with
  | none => rw [hd] at hdec; cases hdec
  | some nb =>
    rw [hd] at hdec
    simp only [Option.map_some', Option.some.injEq] at hdec
    exact ⟨body, nb, hbody, hd, hdec, fun u => by rw [hdec]⟩

set_option maxRecDepth 1000000 in
/-- C2 (amended) on a store of two bookmarks whose URLs need escaping. -/
theorem export_decode_roundtrip_witness :
    (∀ b ∈ twoBookmarks.rows, ∀ c ∈ b.URL.toList, isInCharacterRange c = true) ∧
    ∃ body nb, exportBookmarks twoBookmarks false (fun _ => 1700000000) =
        .attachment 200 "bookmarks.html" "text/html" body ∧
      decodeDocument asciiTables body = some nb ∧
      importURLs nb = ["https://example.com/?a=1&b=\"2\"", "https://go.dev/<doc>"] ∧
      ∀ u, u ∈ importURLs nb ↔ u ∈ twoBookmarks.rows.map (fun b => b.URL) :=
  ⟨by decide, export_decode_roundtrip asciiTables twoBookmarks (fun _ => 1700000000) (by decide)⟩

/-! ## Uniqueness on add (C3) -/

/-- With the capture succeeding and the `INSERT` not failing for another
reason, `addBookmark` of a stored URL answers 409 and changes no row. -/
theorem addBookmark_conflict (w : World) (url : String) (o : Outcome) (shot : Bytes)
    (hurl : url ≠ "") (hc : o.capture = some shot) (hi : o.insertFails = false)
    (hmem : url ∈ w.rows.map (fun r => r.URL)) :
    (addBookmark w url o).2 = .json 409 "error" "This URL is already bookmarked" ∧
    (addBookmark w url o).1.rows = w.rows := by
  have h1 : w.rows.any (fun r => r.URL == url) = true := (any_url_iff w.rows url).2 hmem
  simp [addBookmark, hurl, captureScreenshot, hc, execInsert, hi, h1]

/-- C3, the counterexample to the claim as stated: the URL is non-empty and
both captures succeed, the first `INSERT` fails for a reason other than the
uniqueness constraint, and the second call answers 200, not 409, and adds a
row. -/
theorem add_twice_counterexample :
    (addBookmark initDB "https://example.com" { allGood with insertFails := true }).2 =
      .json 500 "error" "Failed to add bookmark" ∧
    (addBookmark (addBookmark initDB "https://example.com"
        { allGood with insertFails := true }).1 "https://example.com" allGood).2 =
      .json 200 "message" "Bookmark added successfully" ∧
    (addBookmark (addBookmark initDB "https://example.com"
        { allGood with insertFails := true }).1 "https://example.com" allGood).2 ≠
      .json 409 "error" "This URL is already bookmarked" ∧
    (addBookmark (addBookmark initDB "https://example.com"
        { allGood with insertFails := true }).1 "https://example.com" allGood).1.rows ≠
      (addBookmark initDB "https://example.com" { allGood with insertFails := true }).1.rows := by
  decide

/-- C3, amended. Uniqueness on add: for every store (URLs distinct, as the
`UNIQUE` constraint keeps them) and every non-empty URL whose captures
succeed, if neither `INSERT` fails for a reason other than the uniqueness
constraint, then after two `addBookmark` calls with that URL exactly one row
has it; the second call answers 409 "This URL is already bookmarked" and
leaves the rows unchanged; starting from a store without rows, one row is
stored after both calls. -/
theorem add_twice_unique (w : World) (url : String) (o1 o2 : Outcome) (s1 s2 : Bytes)
    (hurl : url ≠ "") (hc1 : o1.capture = some s1) (hc2 : o2.capture = some s2)
    (hi1 : o1.insertFails = false) (hi2 : o2.insertFails = false)
    (hnd : (w.rows.map (fun r => r.URL)).Nodup) :
    (addBookmark (addBookmark w url o1).1 url o2).2 =
      .json 409 "error" "This URL is already bookmarked" ∧
    (addBookmark (addBookmark w url o1).1 url o2).1.rows = (addBookmark w url o1).1.rows ∧
    ((addBookmark (addBookmark w url o1).1 url o2).1.rows.map (fun r => r.URL)).count url = 1 ∧
    (w.rows = [] → (addBookmark (addBookmark w url o1).1 url o2).1.rows.length = 1) := by
  have hrows := importEntry_rows w 0 url o1
  rw [← addBookmark_world w 0 url o1 hurl] at hrows
  have hins : inserts w url o1 = !(w.rows.any (fun r => r.URL == url)) := by
    simp [inserts, hc1, hi1]
  rw [hins] at hrows
  by_cases hu : w.rows.any (fun r => r.URL == url) = true
  · have hmem : url ∈ w.rows.map (fun r => r.URL) := (any_url_iff _ _).1 hu
    simp only [hu, Bool.not_true, Bool.false_eq_true, if_false] at hrows
    have hmem1 : url ∈ (addBookmark w url o1).1.rows.map (fun r => r.URL) := by rw [hrows]; exact hmem
    obtain ⟨hresp, hsame⟩ := addBookmark_conflict _ url o2 s2 hurl hc2 hi2 hmem1
    refine ⟨hresp, hsame, ?_, ?_⟩
    · rw [hsame, hrows]
      exact List.count_eq_one_of_mem hnd hmem
    · intro hnil
      rw [hnil] at hmem
      cases hmem
  · have hu' : w.rows.any (fun r => r.URL == url) = false := by simpa using hu
    have hnot : url ∉ w.rows.map (fun r => r.URL) := fun hc => hu ((any_url_iff _ _).2 hc)
    simp only [hu', Bool.not_false, if_true] at hrows
    have hmem1 : url ∈ (addBookmark w url o1).1.rows.map (fun r => r.URL) := by
      rw [hrows]; simp
    obtain ⟨hresp, hsame⟩ := addBookmark_conflict _ url o2 s2 hurl hc2 hi2 hmem1
    refine ⟨hresp, hsame, ?_, ?_⟩
    · rw [hsame, hrows, List.map_append, List.count_append,
        List.count_eq_zero_of_not_mem hnot]
      simp
    · intro hnil
      rw [hsame, hrows, hnil]
      rfl

/-- C3 (amended) on the empty store with `https://example.com`. -/
theorem add_twice_unique_witness :
    (addBookmark (addBookmark initDB "https://example.com" allGood).1
        "https://example.com" allGood).2 =
      .json 409 "error" "This URL is already bookmarked" ∧
    (addBookmark (addBookmark initDB "https://example.com" allGood).1
        "https://example.com" allGood).1.rows.length = 1 :=
  ⟨(add_twice_unique initDB "https://example.com" allGood allGood [137, 80, 78, 71]
      [137, 80, 78, 71] (by decide) rfl rfl rfl rfl (by decide)).1,
   (add_twice_unique initDB "https://example.com" allGood allGood [137, 80, 78, 71]
      [137, 80, 78, 71] (by decide) rfl rfl rfl rfl (by decide)).2.2.2 rfl⟩

/-! ## Format rejection (C4) -/

/-- C4. Format rejection: when the uploaded bytes fail to decode,
`importNetscapeBookmarks` answers 400 "Failed to parse Netscape bookmark file",
calls `captureScreenshot` for nothing, and leaves the bookmark rows and the
thumbnail files as they were. -/
theorem import_format_rejection (tokens : Bytes → Option Parsed) (w : World) (bytes : Bytes)
    (os : Nat → Outcome) (h : xmlUnmarshal tokens bytes = none) :
    (importNetscapeBookmarks tokens w (.content bytes) os).2 =
        .html 400 "error" "Failed to parse Netscape bookmark file" ∧
    (importNetscapeBookmarks tokens w (.content bytes) os).1.captured = w.captured ∧
    (importNetscapeBookmarks tokens w (.content bytes) os).1.rows = w.rows ∧
    (importNetscapeBookmarks tokens w (.content bytes) os).1.files = w.files ∧
    (importNetscapeBookmarks tokens w (.content bytes) os).1 = w := by
  simp [importNetscapeBookmarks, h]

/-- C4 at a concrete upload: a document with the wrong root element on a store
of one bookmark. -/
theorem import_format_rejection_witness :
    xmlUnmarshal (fun _ => some htmlRoot) [60, 104] = none ∧
    (importNetscapeBookmarks (fun _ => some htmlRoot) sampleWorld (.content [60, 104])
        (fun _ => allGood)).2 = .html 400 "error" "Failed to parse Netscape bookmark file" ∧
    (importNetscapeBookmarks (fun _ => some htmlRoot) sampleWorld (.content [60, 104])
        (fun _ => allGood)).1.captured = sampleWorld.captured ∧
    (importNetscapeBookmarks (fun _ => some htmlRoot) sampleWorld (.content [60, 104])
        (fun _ => allGood)).1.rows = sampleWorld.rows ∧
    (importNetscapeBookmarks (fun _ => some htmlRoot) sampleWorld (.content [60, 104])
        (fun _ => allGood)).1.files = sampleWorld.files ∧
    (importNetscapeBookmarks (fun _ => some htmlRoot) sampleWorld (.content [60, 104])
        (fun _ => allGood)).1 = sampleWorld :=
  ⟨by decide, import_format_rejection (fun _ => some htmlRoot) sampleWorld [60, 104]
    (fun _ => allGood) (by decide)⟩

/-! ## What decoding extracts (C5) -/

/-- C5, the counterexample to the claim as stated: `nestedFolder` decodes, its
link `https://go.dev` sits in a `<DL>` nested within a `<DT>`, and the list
the import loop visits is `https://example.com` and the empty string. -/
theorem decode_nested_counterexample :
    "https://go.dev" ∈ linkHrefsList nestedFolder.children ∧
    (unmarshalDocument nestedFolder).map importURLs = some ["https://example.com", ""] ∧
    ∃ nb, unmarshalDocument nestedFolder = some nb ∧ "https://go.dev" ∉ importURLs nb := by
  refine ⟨by decide, by decide, ?_⟩
  cases h : unmarshalDocument nestedFolder with
  | none => exact absurd h (by decide)
  | some nb =>
    refine ⟨nb, rfl, ?_⟩
    have h2 : (unmarshalDocument nestedFolder).map importURLs =
        some ["https://example.com", ""] := by decide
    rw [h] at h2
    simp only [Option.map_some', Option.some.injEq] at h2
    rw [h2]
    decide

/-- C5, amended. Decode extracts the link entries of the top level only: for
every well-formed document that decodes, the list of URLs the import loop
iterates over has one element for each `<DT>` directly inside a `<DL>`
directly inside the root element, in document order, and that element is the
`HREF` of the `<A>` directly inside the `<DT>` (the empty string when it has
none); links nested more deeply are not extracted. -/
theorem decode_top_level_entries (p : Parsed) (nb : NetscapeBookmark)
    (h : unmarshalDocument p = some nb) :
    importURLs nb = (topLevelEntries p).map directHref := by
  unfold unmarshalDocument at h
  split at h
  · simp only [Option.some.injEq] at h
    subst h
    rw [importURLs_fold]
    rfl
  · cases h

/-- C5 (amended) on `nestedFolder`: two top-level entries, the folder
contributing the empty string. -/
theorem decode_top_level_entries_witness :
    unmarshalDocument nestedFolder = some nestedFolderDecoded ∧
    importURLs nestedFolderDecoded = ["https://example.com", ""] ∧
    importURLs nestedFolderDecoded = (topLevelEntries nestedFolder).map directHref :=
  ⟨by decide, by decide, decode_top_level_entries nestedFolder nestedFolderDecoded (by decide)⟩

/-! ## Export builds one entry per bookmark (C6) -/

/-- C6. Export produces one link entry per bookmark: the value handed to
`MarshalIndent` has `DL.DT` as long as the list of bookmarks, and entry `i` has
the URL of bookmark `i` as `A.HREF` and an empty `H3`. -/
theorem export_one_entry_per_bookmark (bookmarks : List Bookmark) (now : Nat → Int) :
    (exportDocument bookmarks now).DL.DT.length = bookmarks.length ∧
    ∀ (i : Nat) (hi : i < bookmarks.length),
      ∃ dt, (exportDocument bookmarks now).DL.DT[i]? = some dt ∧
        dt.A.HREF = (bookmarks.get ⟨i, hi⟩).URL ∧ dt.H3 = "" := by
  have hDT := exportLoop_DT exportHeader bookmarks now
  have h0 : exportHeader.DL.DT = [] := rfl
  rw [h0, List.nil_append] at hDT
  unfold exportDocument
  rw [hDT]
  refine ⟨by simp, fun i hi => ?_⟩
  refine ⟨{ H3 := "", A := { HREF := (bookmarks.get ⟨i, hi⟩).URL, AddDate := toString (now i) } },
    ?_, rfl, rfl⟩
  rw [List.getElem?_eq_getElem (by simpa using hi)]
  simp

/-- C6 on a store of two bookmarks: two entries, the second with the second
URL. -/
theorem export_one_entry_per_bookmark_witness :
    (1 : Nat) < ([{ ID := 1, URL := "https://a.example", Thumbnail := "" },
        { ID := 2, URL := "https://b.example", Thumbnail := "thumbnails/2.png" }] :
          List Bookmark).length ∧
    (exportDocument [{ ID := 1, URL := "https://a.example", Thumbnail := "" },
        { ID := 2, URL := "https://b.example", Thumbnail := "thumbnails/2.png" }]
        (fun _ => 1700000000)).DL.DT.length = 2 ∧
    ∃ dt, (exportDocument [{ ID := 1, URL := "https://a.example", Thumbnail := "" },
        { ID := 2, URL := "https://b.example", Thumbnail := "thumbnails/2.png" }]
        (fun _ => 1700000000)).DL.DT[1]? = some dt ∧
      dt.A.HREF = "https://b.example" ∧ dt.H3 = "" :=
  ⟨by decide,
   (export_one_entry_per_bookmark [{ ID := 1, URL := "https://a.example", Thumbnail := "" },
        { ID := 2, URL := "https://b.example", Thumbnail := "thumbnails/2.png" }]
        (fun _ => 1700000000)).1,
   (export_one_entry_per_bookmark [{ ID := 1, URL := "https://a.example", Thumbnail := "" },
        { ID := 2, URL := "https://b.example", Thumbnail := "thumbnails/2.png" }]
        (fun _ => 1700000000)).2 1 (by decide)⟩

/-! ## Delete (C7) -/

theorem filter_ne_length_succ (rows : List Bookmark) (k : Int)
    (hnd : (rows.map (fun r => r.ID)).Nodup) (hex : ∃ r ∈ rows, r.ID = k) :
    (rows.filter (fun r => r.ID ≠ k)).length + 1 = rows.length := by
  simp only [ne_eq, decide_not]
  induction rows with
  | nil => obtain ⟨r, hr, _⟩ := hex; cases hr
  | cons a rs ih =>
    rw [List.map_cons, List.nodup_cons] at hnd
    by_cases ha : a.ID = k
    · have hall : ∀ r ∈ rs, r.ID ≠ k := by
        intro r hr hk
        exact hnd.1 (List.mem_map.2 ⟨r, hr, by rw [hk, ha]⟩)
      have hfil : rs.filter (fun r => !decide (r.ID = k)) = rs := by
        rw [List.filter_eq_self]
        intro r hr
        simpa using hall r hr
      rw [List.filter_cons]
      simp [ha, hfil]
    · have hex' : ∃ r ∈ rs, r.ID = k := by
        obtain ⟨r, hr, hk⟩ := hex
        rcases List.mem_cons.1 hr with h1 | h1
        · exact absurd (h1 ▸ hk) ha
        · exact ⟨r, h1, hk⟩
      have h2 := ih hnd.2 hex'
      rw [List.filter_cons]
      simp only [ha, decide_False, Bool.not_false, if_true, List.length_cons]
      omega

/-- C7, the counterexample to the claim as stated: no row has id 7, and
`deleteBookmark` still reports an error when the `DELETE` statement fails. -/
theorem delete_missing_id_counterexample :
    (∀ r ∈ sampleWorld.rows, (some 7 : Option Int) ≠ some r.ID) ∧
    (deleteBookmark (fun _ => some 7) sampleWorld "7" true).2 =
      .html 500 "error" "Failed to delete bookmark" ∧
    (deleteBookmark (fun _ => some 7) sampleWorld "7" true).2 ≠ .redirect 303 "/" := by
  decide

/-- C7, amended. Idempotent delete: when the `DELETE` statement itself does
not fail, `deleteBookmark` for an id that no row has redirects to the listing
and leaves the state unchanged; for an id that a row has it redirects, keeps
every other row unchanged and in place, and removes the rows with that id,
which is exactly one row under the primary key. -/
theorem delete_idempotent (affinity : String → Option Int) (w : World) (param : String) :
    ((∀ r ∈ w.rows, affinity param ≠ some r.ID) →
      deleteBookmark affinity w param false = (w, .redirect 303 "/")) ∧
    (∀ k, affinity param = some k →
      (deleteBookmark affinity w param false).2 = .redirect 303 "/" ∧
      (deleteBookmark affinity w param false).1.rows = w.rows.filter (fun r => r.ID ≠ k) ∧
      (∀ r, r ∈ (deleteBookmark affinity w param false).1.rows ↔ r ∈ w.rows ∧ r.ID ≠ k) ∧
      (deleteBookmark affinity w param false).1.files = w.files ∧
      ((w.rows.map (fun r => r.ID)).Nodup → (∃ r ∈ w.rows, r.ID = k) →
        (deleteBookmark affinity w param false).1.rows.length + 1 = w.rows.length)) := by
  constructor
  · intro h
    cases hk : affinity param with
    | none => simp [deleteBookmark, execDelete, hk]
    | some k =>
      have hfil : w.rows.filter (fun r => r.ID ≠ k) = w.rows := by
        rw [List.filter_eq_self]
        intro r hr
        have := h r hr
        rw [hk] at this
        simpa using fun hc => this (by rw [hc])
      simp only [deleteBookmark, execDelete, hk, Bool.false_eq_true, if_false, hfil]
  · intro k hk
    have hrows : (deleteBookmark affinity w param false).1.rows =
        w.rows.filter (fun r => r.ID ≠ k) := by
      simp [deleteBookmark, execDelete, hk]
    refine ⟨by simp [deleteBookmark, execDelete, hk], hrows, ?_,
      by simp [deleteBookmark, execDelete, hk], ?_⟩
    · intro r
      rw [hrows, List.mem_filter]
      simp
    · intro hnd hex
      rw [hrows]
      exact filter_ne_length_succ w.rows k hnd hex

/-- C7 (amended) at concrete inputs: deleting id 7 from a store whose only row
has id 1 changes nothing, deleting id 1 empties it. -/
theorem delete_idempotent_witness :
    deleteBookmark (fun _ => some 7) sampleWorld "7" false = (sampleWorld, .redirect 303 "/") ∧
    (deleteBookmark (fun _ => some 1) sampleWorld "1" false).1.rows.length + 1 =
      sampleWorld.rows.length :=
  ⟨(delete_idempotent (fun _ => some 7) sampleWorld "7").1 (by decide),
   ((delete_idempotent (fun _ => some 1) sampleWorld "1").2 1 rfl).2.2.2.2
     (by decide) (by decide)⟩

/-! ## Two-phase creation (C8) -/

/-- C8, the counterexample to the claim as stated: the capture is the first
step, so when it fails nothing has been inserted and no row for the URL is
stored afterwards, in the add flow and in the import flow. -/
theorem capture_failure_counterexample :
    (addBookmark initDB "https://example.com" { allGood with capture := none }).2 =
      .json 500 "error" "Failed to capture screenshot" ∧
    (addBookmark initDB "https://example.com" { allGood with capture := none }).1.rows = [] ∧
    (¬ ∃ r ∈ (addBookmark initDB "https://example.com" { allGood with capture := none }).1.rows,
      r.URL = "https://example.com" ∧ r.Thumbnail = "") ∧
    (importNetscapeBookmarks (fun _ => some twoLinks) initDB (.content [60])
      (fun _ => { allGood with capture := none })).1.rows = [] := by
  decide

/-- C8, amended. Two-phase creation in the add and import flows: the capture
is attempted first and when it fails the attempt inserts no row (the rows stay
as they were); when it succeeds and the `INSERT` succeeds, a row is inserted
with an empty thumbnail reference, and whenever the thumbnail file write fails
or the thumbnail update fails, that row, with its empty reference, is stored
afterwards (in the import flow: after the pass and still when the import
ends). -/
theorem two_phase_creation :
    (∀ (w : World) (url : String) (o : Outcome), url ≠ "" →
      (o.capture = none → (addBookmark w url o).1.rows = w.rows) ∧
      (o.capture.isSome = true → o.insertFails = false →
        url ∉ w.rows.map (fun r => r.URL) →
        (o.write ≠ .ok ∨ o.updateFails = true) →
        (addBookmark w url o).1.rows =
          w.rows ++ [{ ID := nextRowid w, URL := url, Thumbnail := "" }])) ∧
    (∀ (tokens : Bytes → Option Parsed) (w : World) (bytes : Bytes) (os : Nat → Outcome)
        (nb : NetscapeBookmark) (i : Nat) (dt : DTEntry),
      xmlUnmarshal tokens bytes = some nb → nb.DL.DT[i]? = some dt →
      ((os i).capture = none →
        (importLoop w 0 (nb.DL.DT.take (i + 1)) os).1.rows =
          (importLoop w 0 (nb.DL.DT.take i) os).1.rows) ∧
      ((os i).capture.isSome = true → (os i).insertFails = false →
        dt.A.HREF ∉ (importLoop w 0 (nb.DL.DT.take i) os).1.rows.map (fun r => r.URL) →
        ((os i).write ≠ .ok ∨ (os i).updateFails = true) →
        (importLoop w 0 (nb.DL.DT.take (i + 1)) os).1.rows =
          (importLoop w 0 (nb.DL.DT.take i) os).1.rows ++
            [{ ID := nextRowid (importLoop w 0 (nb.DL.DT.take i) os).1, URL := dt.A.HREF,
               Thumbnail := "" }] ∧
        ({ ID := nextRowid (importLoop w 0 (nb.DL.DT.take i) os).1, URL := dt.A.HREF,
           Thumbnail := "" } : Bookmark) ∈
          (importNetscapeBookmarks tokens w (.content bytes) os).1.rows)) := by
  constructor
  · intro w url o hurl
    rw [addBookmark_world w 0 url o hurl]
    exact ⟨importEntry_capture_failed w 0 url o,
      importEntry_second_phase_failed w 0 url o⟩
  · intro tokens w bytes os nb i dt hdec hdt
    rw [import_world tokens w bytes os nb hdec, importLoop_take_succ w nb.DL.DT os i dt hdt]
    refine ⟨importEntry_capture_failed _ _ _ _, ?_⟩
    intro hc hi hu hf
    have hrows := importEntry_second_phase_failed _ (importLoop w 0 (nb.DL.DT.take i) os).2
      dt.A.HREF (os i) hc hi hu hf
    refine ⟨hrows, ?_⟩
    apply importLoop_take_mono w nb.DL.DT os (i + 1)
    rw [importLoop_take_succ w nb.DL.DT os i dt hdt, hrows]
    simp

/-- C8 (amended) at concrete inputs: an add whose file write fails on
`sampleWorld`, and an import of `twoLinks` whose updates fail. -/
theorem two_phase_creation_witness :
    (addBookmark sampleWorld "https://go.dev" { allGood with write := .openFailed }).1.rows =
      sampleWorld.rows ++ [{ ID := 2, URL := "https://go.dev", Thumbnail := "" }] ∧
    ({ ID := 1, URL := "https://example.com", Thumbnail := "" } : Bookmark) ∈
      (importNetscapeBookmarks (fun _ => some twoLinks) initDB (.content [60])
        (fun _ => { allGood with updateFails := true })).1.rows :=
  ⟨(two_phase_creation.1 sampleWorld "https://go.dev" { allGood with write := .openFailed }
      (by decide)).2 rfl rfl (by decide) (Or.inl (by decide)),
   ((two_phase_creation.2 (fun _ => some twoLinks) initDB [60]
      (fun _ => { allGood with updateFails := true }) _ 0 _ rfl rfl).2 rfl rfl (by decide)
      (Or.inr rfl)).2⟩

/-! ## Thumbnail invariant (C9) -/

/-- C9. Thumbnail invariant: in the state after `initDB` every row with a
non-empty thumbnail reference refers to an existing file, and `addBookmark`,
`importNetscapeBookmarks` and `deleteBookmark` preserve this for every input
and every outcome of capture, insert, file write, update and delete. -/
theorem thumbnail_invariant :
    ThumbnailsExist initDB ∧
    (∀ (w : World) (url : String) (o : Outcome),
      ThumbnailsExist w → ThumbnailsExist (addBookmark w url o).1) ∧
    (∀ (tokens : Bytes → Option Parsed) (w : World) (upload : Upload) (os : Nat → Outcome),
      ThumbnailsExist w → ThumbnailsExist (importNetscapeBookmarks tokens w upload os).1) ∧
    (∀ (affinity : String → Option Int) (w : World) (param : String) (fails : Bool),
      ThumbnailsExist w → ThumbnailsExist (deleteBookmark affinity w param fails).1) := by
  refine ⟨?_, ?_, ?_, ?_⟩
  · intro r hr
    cases hr
  · intro w url o h
    by_cases hurl : url = ""
    · simpa [addBookmark, hurl] using h
    · rw [addBookmark_world w 0 url o hurl]
      exact importEntry_thumbnails w 0 url o h
  · intro tokens w upload os h
    cases upload with
    | missing => simpa [importNetscapeBookmarks] using h
    | unreadable => simpa [importNetscapeBookmarks] using h
    | content bytes =>
      cases hdec : xmlUnmarshal tokens bytes with
      | none => simpa [importNetscapeBookmarks, hdec] using h
      | some nb =>
        rw [import_world tokens w bytes os nb hdec]
        exact importLoop_thumbnails w 0 nb.DL.DT os h
  · intro affinity w param fails h
    cases fails with
    | true => simpa [deleteBookmark, execDelete] using h
    | false =>
      cases hk : affinity param with
      | none => simpa [deleteBookmark, execDelete, hk] using h
      | some k =>
        intro r hr hne
        simp only [deleteBookmark, execDelete, hk, Bool.false_eq_true, if_false] at hr ⊢
        exact h r (List.mem_filter.1 hr).1 hne

/-- C9 at concrete inputs: the invariant holds in `sampleWorld` and after an
add whose file write fails, an import and a delete from it. -/
theorem thumbnail_invariant_witness :
    ThumbnailsExist sampleWorld ∧
    ThumbnailsExist (addBookmark sampleWorld "https://go.dev"
      { allGood with write := .writeFailed 2 }).1 ∧
    ThumbnailsExist (importNetscapeBookmarks (fun _ => some twoLinks) sampleWorld
      (.content [60]) (fun _ => allGood)).1 ∧
    ThumbnailsExist (deleteBookmark (fun _ => some 1) sampleWorld "1" false).1 :=
  ⟨by unfold ThumbnailsExist; decide,
   thumbnail_invariant.2.1 sampleWorld "https://go.dev" { allGood with write := .writeFailed 2 }
     (by unfold ThumbnailsExist; decide),
   thumbnail_invariant.2.2.1 (fun _ => some twoLinks) sampleWorld (.content [60])
     (fun _ => allGood) (by unfold ThumbnailsExist; decide),
   thumbnail_invariant.2.2.2 (fun _ => some 1) sampleWorld "1" false (by unfold ThumbnailsExist; decide)⟩

/-! ## Deterministic thumbnail naming (C10) -/

theorem digitValue_digitChar (d : Nat) (h : d < 10) : digitValue (Nat.digitChar d) = d := by
  interval_cases d <;> rfl

theorem digitChar_ne_minus (d : Nat) (h : d < 10) : Nat.digitChar d ≠ '-' := by
  interval_cases d <;> decide

theorem decimalValue_toDigitsCore (fuel n : Nat) (ds : List Char) (h : n < fuel) :
    decimalValue 0 (Nat.toDigitsCore 10 fuel n ds) = decimalValue n ds := by
  induction fuel generalizing n ds with
  | zero => omega
  | succ fuel ih =>
    simp only [Nat.toDigitsCore]
    have hd := digitValue_digitChar (n % 10) (Nat.mod_lt _ (by decide))
    split
    · rename_i h0
      simp only [decimalValue, List.foldl_cons, hd]
      congr 1
      omega
    · rename_i h0
      rw [ih (n / 10) _ (by omega)]
      simp only [decimalValue, List.foldl_cons, hd]
      congr 1
      omega

theorem toDigitsCore_head (fuel n : Nat) (ds : List Char) :
    ∃ d, d < 10 ∧ ∃ tail, Nat.toDigitsCore 10 (fuel + 1) n ds = Nat.digitChar d :: tail := by
  induction fuel generalizing n ds with
  | zero =>
    refine ⟨n % 10, Nat.mod_lt _ (by decide), ds, ?_⟩
    simp [Nat.toDigitsCore]
  | succ fuel ih =>
    rw [Nat.toDigitsCore]
    by_cases h0 : n / 10 = 0
    · exact ⟨n % 10, Nat.mod_lt _ (by decide), ds, by simp [h0]⟩
    · simp only [h0, if_false]
      exact ih _ _

theorem toDigits_injective (a b : Nat) (h : Nat.toDigits 10 a = Nat.toDigits 10 b) : a = b := by
  have ha := decimalValue_toDigitsCore (a + 1) a [] (by omega)
  have hb := decimalValue_toDigitsCore (b + 1) b [] (by omega)
  unfold Nat.toDigits at h
  rw [h, hb] at ha
  simpa [decimalValue] using ha.symm

/-- Formatting with `%d` is injective. -/
theorem toString_int_injective (a b : Int) (h : toString a = toString b) : a = b := by
  have key : ∀ (m k : Nat), toString (Int.ofNat m) ≠ toString (Int.negSucc k) := by
    intro m k hc
    have hd : (Nat.toDigits 10 m) = '-' :: Nat.toDigits 10 (k + 1) := by
      have := congrArg String.data hc
      simpa [toString, instToStringInt, Nat.repr, List.asString] using this
    obtain ⟨d, hd10, tail, ht⟩ := toDigitsCore_head m m []
    unfold Nat.toDigits at hd
    rw [ht] at hd
    exact digitChar_ne_minus d hd10 (List.cons.inj hd).1
  cases a with
  | ofNat m =>
    cases b with
    | ofNat k =>
      have := congrArg String.data h
      simp only [toString, instToStringInt, Nat.repr, List.asString] at this
      rw [toDigits_injective m k this]
    | negSucc k => exact absurd h (key m k)
  | negSucc m =>
    cases b with
    | ofNat k => exact absurd h.symm (key k m)
    | negSucc k =>
      have := congrArg String.data h
      simp only [toString, instToStringInt, Nat.repr, List.asString, String.data_append,
        List.append_cancel_left_eq] at this
      have := toDigits_injective _ _ this
      simp only [Nat.succ_eq_add_one, add_left_inj] at this
      rw [this]

theorem thumbnailPath_injective (a b : Int) (h : thumbnailPath a = thumbnailPath b) : a = b := by
  apply toString_int_injective
  have := congrArg String.data h
  simp only [thumbnailPath, String.data_append, List.append_assoc,
    List.append_cancel_left_eq, List.append_cancel_right_eq] at this
  exact String.ext this

theorem reachable_named (w : World) (h : Reachable w) : NamedById w := by
  induction h with
  | init => intro r hr; cases hr
  | add w url o _ ih =>
    by_cases hurl : url = ""
    · simpa [addBookmark, hurl] using ih
    · rw [addBookmark_world w 0 url o hurl]
      exact importEntry_named w 0 url o ih
  | imported tokens w upload os _ ih =>
    cases upload with
    | missing => simpa [importNetscapeBookmarks] using ih
    | unreadable => simpa [importNetscapeBookmarks] using ih
    | content bytes =>
      cases hdec : xmlUnmarshal tokens bytes with
      | none => simpa [importNetscapeBookmarks, hdec] using ih
      | some nb =>
        rw [import_world tokens w bytes os nb hdec]
        exact importLoop_named w 0 nb.DL.DT os ih
  | deleted affinity w param fails _ ih =>
    cases fails with
    | true => simpa [deleteBookmark, execDelete] using ih
    | false =>
      cases hk : affinity param with
      | none => simpa [deleteBookmark, execDelete, hk] using ih
      | some k =>
        intro r hr
        simp only [deleteBookmark, execDelete, hk, Bool.false_eq_true, if_false] at hr
        exact ih r (List.mem_filter.1 hr).1

/-- Handler `addBookmark` answers 200 only after a pass that ran to the end. -/
theorem addBookmark_ok (w : World) (url : String) (o : Outcome)
    (h : (addBookmark w url o).2 = .json 200 "message" "Bookmark added successfully") :
    url ≠ "" ∧ completes w url o = true := by
  obtain ⟨cap, ins, wr, upd⟩ := o
  by_cases hurl : url = ""
  · simp [addBookmark, hurl] at h
  · refine ⟨hurl, ?_⟩
    by_cases hu : w.rows.any (fun r => r.URL == url) = true
    · cases cap <;> cases ins <;>
        simp [addBookmark, hurl, captureScreenshot, execInsert, hu] at h
    · have hu' : w.rows.any (fun r => r.URL == url) = false := by simpa using hu
      cases cap <;> cases ins <;> cases wr <;> cases upd <;>
        simp [addBookmark, hurl, captureScreenshot, execInsert, hu', writeFile, execUpdate,
          completes, inserts] at h ⊢

/-- The row a pass leaves when it runs to the end. -/
theorem importEntry_completed_row (w : World) (n : Nat) (url : String) (o : Outcome)
    (h : completes w url o = true) :
    (importEntry w n url o).1.rows =
      w.rows ++ [{ ID := nextRowid w, URL := url,
                   Thumbnail := "thumbnails/" ++ toString (nextRowid w) ++ ".png" }] := by
  have hi : inserts w url o = true := by
    simp only [completes, Bool.and_eq_true] at h
    exact h.1.1
  rw [importEntry_rows, if_pos hi, if_pos h]
  rfl

/-- C10, the counterexample to the claim as stated: two `addBookmark` calls
whose `os.WriteFile` fails lead from the empty store to a store whose rows 1
and 2 both carry the empty thumbnail reference, so two rows with different
ids share a thumbnail reference. -/
theorem shared_empty_reference_counterexample :
    Reachable (addBookmark (addBookmark initDB "https://example.com" writeFails).1
      "https://go.dev" writeFails).1 ∧
    (addBookmark (addBookmark initDB "https://example.com" writeFails).1
      "https://go.dev" writeFails).1.rows =
      [{ ID := 1, URL := "https://example.com", Thumbnail := "" },
       { ID := 2, URL := "https://go.dev", Thumbnail := "" }] ∧
    ¬ (∀ r1 ∈ (addBookmark (addBookmark initDB "https://example.com" writeFails).1
          "https://go.dev" writeFails).1.rows,
        ∀ r2 ∈ (addBookmark (addBookmark initDB "https://example.com" writeFails).1
          "https://go.dev" writeFails).1.rows,
        r1.ID ≠ r2.ID → r1.Thumbnail ≠ r2.Thumbnail) :=
  ⟨Reachable.add _ _ _ (Reachable.add _ _ _ Reachable.init), by decide, by decide⟩

/-- C10, amended. Deterministic thumbnail naming: the thumbnail reference that
`addBookmark` (on success) and the import loop (when it counts the entry)
write to the new row is `thumbnails/<decimal id>.png`, computed from the id of
that row alone; in every store reached from the empty store by add, import
and delete, every row with a non-empty thumbnail reference has the reference
`thumbnails/<its id>.png`, and two rows with different ids never share a
non-empty thumbnail reference: the non-empty reference of a row is not the
reference of any row with another id. -/
theorem thumbnail_named_by_id (w : World) (h : Reachable w) :
    (∀ (url : String) (o : Outcome),
      (addBookmark w url o).2 = .json 200 "message" "Bookmark added successfully" →
      (addBookmark w url o).1.rows =
        w.rows ++ [{ ID := nextRowid w, URL := url,
                     Thumbnail := "thumbnails/" ++ toString (nextRowid w) ++ ".png" }]) ∧
    (∀ (n : Nat) (url : String) (o : Outcome),
      (importEntry w n url o).2 = n + 1 →
      (importEntry w n url o).1.rows =
        w.rows ++ [{ ID := nextRowid w, URL := url,
                     Thumbnail := "thumbnails/" ++ toString (nextRowid w) ++ ".png" }]) ∧
    (∀ r ∈ w.rows, r.Thumbnail ≠ "" →
      r.Thumbnail = "thumbnails/" ++ toString r.ID ++ ".png") ∧
    (∀ r1 ∈ w.rows, ∀ r2 ∈ w.rows, r1.ID ≠ r2.ID → r1.Thumbnail ≠ "" →
      r1.Thumbnail ≠ r2.Thumbnail) := by
  have hn := reachable_named w h
  refine ⟨?_, ?_, ?_, ?_⟩
  · intro url o hok
    obtain ⟨hurl, hc⟩ := addBookmark_ok w url o hok
    rw [addBookmark_world w 0 url o hurl]
    exact importEntry_completed_row w 0 url o hc
  · intro n url o hcount
    have hc : completes w url o = true := by
      rw [importEntry_count] at hcount
      by_cases hc : completes w url o = true
      · exact hc
      · simp [hc] at hcount
    exact importEntry_completed_row w n url o hc
  · intro r hr hne
    rcases hn r hr with h1 | h1
    · exact absurd h1 hne
    · exact h1
  · intro r1 h1 r2 h2 hid hne heq
    have e1 : r1.Thumbnail = thumbnailPath r1.ID := (hn r1 h1).resolve_left hne
    have e2 : r2.Thumbnail = thumbnailPath r2.ID :=
      (hn r2 h2).resolve_left (by rw [← heq]; exact hne)
    exact hid (thumbnailPath_injective _ _ (by rw [← e1, ← e2, heq]))

/-- C10 (amended) at a concrete store: after importing `twoLinks` into the
empty store, the two rows carry `thumbnails/1.png` and `thumbnails/2.png`, and
the reference of either is not the reference of a row with another id. -/
theorem thumbnail_named_by_id_witness :
    Reachable (importNetscapeBookmarks (fun _ => some twoLinks) initDB (.content [60])
      (fun _ => allGood)).1 ∧
    (importNetscapeBookmarks (fun _ => some twoLinks) initDB (.content [60])
      (fun _ => allGood)).1.rows =
      [{ ID := 1, URL := "https://example.com", Thumbnail := "thumbnails/1.png" },
       { ID := 2, URL := "https://go.dev", Thumbnail := "thumbnails/2.png" }] ∧
    (∀ r ∈ (importNetscapeBookmarks (fun _ => some twoLinks) initDB (.content [60])
      (fun _ => allGood)).1.rows, r.Thumbnail ≠ "" →
      r.Thumbnail = "thumbnails/" ++ toString r.ID ++ ".png") ∧
    (∀ r1 ∈ (importNetscapeBookmarks (fun _ => some twoLinks) initDB (.content [60])
        (fun _ => allGood)).1.rows,
      ∀ r2 ∈ (importNetscapeBookmarks (fun _ => some twoLinks) initDB (.content [60])
        (fun _ => allGood)).1.rows,
      r1.ID ≠ r2.ID → r1.Thumbnail ≠ "" → r1.Thumbnail ≠ r2.Thumbnail) :=
  ⟨Reachable.imported _ _ _ _ Reachable.init, by decide,
   (thumbnail_named_by_id _ (Reachable.imported (fun _ => some twoLinks) initDB (.content [60])
      (fun _ => allGood) Reachable.init)).2.2.1,
   (thumbnail_named_by_id _ (Reachable.imported (fun _ => some twoLinks) initDB (.content [60])
      (fun _ => allGood) Reachable.init)).2.2.2⟩

end BookmarkManager
